import Mathlib

/-!
# go-gnuplot: the script emission engine of `plot.go`

A shallow embedding of `plot.go`.  A `*Gnuplot` receiver becomes an explicit
state of type `Gnuplot`; every method that emits becomes a function
`Gnuplot → Res`, where `Res` records either normal return or the fault that
stopped the call together with the state reached at that point.  Callback
arguments (`func()`) become functions `Gnuplot → Res`.

Conventions.
* The sink (`io.Writer`) is modelled by `Writer`: the log of the chunks passed to
  `io.WriteString`, in order, plus the number of writes that will still succeed.
  Every `Emit` performs exactly one write, so one chunk is one emitted line.
* Go `int` is `Int`; Go `float64` is the bit pattern `Float64`.
* The rendering of a `float64` by package `fmt` (verb `%g`, also used by
  `fmt.Sprint`) is library code: it is the parameter `g` of every function
  that formats a float.
-/

namespace GoGnuplot

/-! ## Data model -/

/-- A Go `float64`, kept as its IEEE-754 bit pattern. -/
structure Float64 where
  bits : Nat
deriving DecidableEq, Repr

/-- The constant `0.5`. -/
def f64_0_5 : Float64 := ⟨0x3FE0000000000000⟩

/-- The constant `math.MaxFloat64`. -/
def MaxFloat64 : Float64 := ⟨0x7FEFFFFFFFFFFFFF⟩

/-- The line type constant `DOTTED_LINE`. -/
def DOTTED_LINE : String := "3"

/-- The point type constant `CIRCLE_POINT`. -/
def CIRCLE_POINT : String := "6"

/-- The point type constant `ROUND_POINT`. -/
def ROUND_POINT : String := "7"

/-- The struct `Style`. -/
structure Style where
  Color : String
  LineType : String
  LineWidth : Float64
  PointType : String
  PointSize : Float64
deriving DecidableEq, Repr

/-- The sink behind the `io.Writer`: the chunks written so far, oldest first, and
the number of further writes that succeed (`none`: the sink never fails). -/
structure Writer where
  written : List String
  room : Option Nat
deriving DecidableEq, Repr

/-- The text held by the sink: the written chunks, concatenated. -/
def Writer.content (w : Writer) : String :=
  String.join w.written

/-- The library call `io.WriteString`: `none` is a write error. -/
def WriteString (w : Writer) (s : String) : Option Writer :=
  match w.room with
  | none => some { w with written := w.written ++ [s] }
  | some 0 => none
  | some (n + 1) => some { written := w.written ++ [s], room := some n }

/-- The struct `Gnuplot`, with `Style` embedded. -/
structure Gnuplot extends Style where
  f : Writer
  indentLevel : Int
deriving DecidableEq, Repr

/-- The ways a call can stop without returning. -/
inductive Fault where
  /-- The branch `panic(err)` of `Emit`: the write to the sink failed. -/
  | writeError
  /-- The library call `strings.Repeat` panics on a negative count. -/
  | repeatNegative
  /-- The call `os.Exit(code)`, after `stdout` was printed. -/
  | exit (code : Int) (stdout : String)
deriving DecidableEq, Repr

/-- Outcome of a call on a surface: normal return with the new state, or a
fault with the state reached when it happened. -/
inductive Res where
  | ok (p : Gnuplot)
  | fail (e : Fault) (p : Gnuplot)
deriving DecidableEq, Repr

/-- Sequencing: the next statement runs only after a normal return. -/
def Res.bind (r : Res) (k : Gnuplot → Res) : Res :=
  match r with
  | .ok p => k p
  | .fail e p => .fail e p

/-- The state carried by an outcome. -/
def Res.state : Res → Gnuplot
  | .ok p => p
  | .fail _ p => p

/-- The fault of an outcome, if any. -/
def Res.fault : Res → Option Fault
  | .ok _ => none
  | .fail e _ => some e

/-! ## Library functions used by the code -/

/-- The library call `strings.Repeat(s, count)`; `none` is its panic on a
negative count. -/
def Repeat (s : String) (count : Int) : Option String :=
  if count < 0 then none else some (String.join (List.replicate count.toNat s))

/-- The verb `%d` of `fmt.Sprintf` on an `int`. -/
def fmtInt : Int → String
  | .ofNat m => Nat.repr m
  | .negSucc m => "-" ++ Nat.repr (m + 1)

/-- The backward scan of `filepath.Ext` over the bytes not yet visited (last byte
first); `acc` is the suffix already passed. -/
def extScan : List Char → List Char → List Char
  | [], _ => []
  | c :: rest, acc =>
    if c = '/' then []
    else if c = '.' then '.' :: acc
    else extScan rest (c :: acc)

/-- The library call `filepath.Ext` (path separator `/`). -/
def Ext (path : String) : String :=
  ⟨extScan path.data.reverse []⟩

/-! ## The methods of `*Gnuplot` -/

/-- The statement `p.indentLevel++`. -/
def incIndent (p : Gnuplot) : Gnuplot :=
  { p with indentLevel := p.indentLevel + 1 }

/-- The statement `p.indentLevel--`. -/
def decIndent (p : Gnuplot) : Gnuplot :=
  { p with indentLevel := p.indentLevel - 1 }

/-- Method `PointStyle`. -/
def PointStyle (g : Float64 → String) (p : Gnuplot) : String :=
  "pointtype " ++ p.PointType ++ " pointsize " ++ g p.PointSize ++ " linecolor " ++ p.Color

/-- Method `LineStyle`. -/
def LineStyle (g : Float64 → String) (p : Gnuplot) : String :=
  "linetype " ++ p.LineType ++ " linewidth " ++ g p.LineWidth ++ " linecolor " ++ p.Color

/-- Method `Emit`. -/
def Emit (cmd : String) (p : Gnuplot) : Res :=
  match Repeat "    " p.indentLevel with
  | none => .fail .repeatNegative p
  | some ind =>
    match WriteString p.f (ind ++ cmd ++ "\n") with
    | none => .fail .writeError p
    | some w => .ok { p with f := w }

/-- Method `Set`. -/
def Set (cmd : String) (p : Gnuplot) : Res :=
  Emit ("set " ++ cmd) p

/-- Method `Unset`. -/
def Unset (cmd : String) (p : Gnuplot) : Res :=
  Emit ("unset " ++ cmd) p

/-- Method `Empty`: the invisible dot. -/
def Empty (g : Float64 → String) (p : Gnuplot) : Res :=
  (Emit "'-' linetype bgnd" p).bind fun p =>
  (Emit (g MaxFloat64 ++ " " ++ g MaxFloat64) p).bind fun p =>
  Emit "e" p

/-- Method `Plot`. -/
def Plot (g : Float64 → String) (f : Gnuplot → Res) (p : Gnuplot) : Res :=
  (Emit "plot \\" p).bind fun p =>
  (f (incIndent p)).bind fun p =>
  (Empty g p).bind fun p =>
  .ok (decIndent p)

/-- Method `data`. -/
def data (style : String) (f : Gnuplot → Res) (p : Gnuplot) : Res :=
  (Emit ("'-' " ++ style) p).bind fun p =>
  (f (incIndent p)).bind fun p =>
  Emit "e,\\" (decIndent p)

/-- Method `Margin`. -/
def Margin (m : Int) (p : Gnuplot) : Res :=
  (Set ("rmargin " ++ fmtInt m) p).bind fun p =>
  (Set ("lmargin " ++ fmtInt m) p).bind fun p =>
  (Set ("tmargin " ++ fmtInt m) p).bind fun p =>
  Set ("bmargin " ++ fmtInt m) p

/-- Method `PlotBorder`. -/
def PlotBorder (g : Float64 → String) (p : Gnuplot) : Res :=
  (Set "tics" p).bind fun p =>
  (Set "border" p).bind fun p =>
  Plot g (fun p => .ok p) p

/-- Method `With`. -/
def With (option : String) (f : Gnuplot → Res) (p : Gnuplot) : Res :=
  (Set option p).bind fun p =>
  (f (incIndent p)).bind fun p =>
  Unset option (decIndent p)

/-- Method `NoTitle`. -/
def NoTitle (p : Gnuplot) : Res :=
  Unset "key" p

/-- Method `Multiplot`. -/
def Multiplot (g : Float64 → String) (f : Gnuplot → Res) (p : Gnuplot) : Res :=
  With "multiplot" (fun p =>
    (NoTitle p).bind fun p =>
    (Unset "tics" p).bind fun p =>
    (Unset "border" p).bind fun p =>
    (Unset "raxis" p).bind fun p =>
    (f p).bind fun p =>
    PlotBorder g p) p

/-- Method `Points`: one `Emit` per element, in order. -/
def Points (g : Float64 → String) : List String → Gnuplot → Res
  | [], p => .ok p
  | point :: rest, p =>
    (Emit ("\"<echo " ++ point ++ "\" with points " ++ PointStyle g p ++ ",\\") p).bind
      (Points g rest)

/-- Method `Lines`: one `Emit` per element, in order. -/
def Lines (g : Float64 → String) : List String → Gnuplot → Res
  | [], p => .ok p
  | line :: rest, p =>
    (Emit (line ++ " with lines " ++ LineStyle g p ++ ",\\") p).bind (Lines g rest)

/-- Method `Circle`. -/
def Circle (g : Float64 → String) (a b r : Float64) (p : Gnuplot) : Res :=
  Set ("object circle at " ++ g a ++ "," ++ g b ++ " size " ++ g r ++
    " fillcolor rgb '#000000' fillstyle empty linewidth 0.2") p

/-- Method `setTerminal`. -/
def setTerminal (name : String) (width height : Int) (style : String) (p : Gnuplot) : Res :=
  Emit ("set terminal " ++ name ++ " size " ++ fmtInt width ++ "," ++ fmtInt height ++
    " " ++ style) p

/-- Method `setOutput`; the `default` branch prints to standard output and
exits the process with status 1. -/
def setOutput (file : String) (width height : Int) (style : String) (p : Gnuplot) : Res :=
  let ext := Ext file
  (if ext = ".svg" then setTerminal "svg" width height style p
   else if ext = ".png" then setTerminal "pngcairo" width height style p
   else if ext = ".htm" ∨ ext = ".html" then setTerminal "canvas" width height style p
   else .fail (.exit 1 ("Unsupported Format " ++ ext ++ "\n")) p).bind fun p =>
  Emit ("set output '" ++ file ++ "'") p

/-- Method `LockRatio`. -/
def LockRatio (p : Gnuplot) : Res :=
  Set "size square" p

/-- Method `Xtics`. -/
def Xtics (style : String) (p : Gnuplot) : Res :=
  Set ("xtics " ++ style) p

/-- Method `Ytics`. -/
def Ytics (style : String) (p : Gnuplot) : Res :=
  Set ("ytics " ++ style) p

/-- Method `Xrange`. -/
def Xrange (g : Float64 → String) (a b : Float64) (p : Gnuplot) : Res :=
  Set ("xrange [" ++ g a ++ ":" ++ g b ++ "]") p

/-- Method `Yrange`. -/
def Yrange (g : Float64 → String) (a b : Float64) (p : Gnuplot) : Res :=
  Set ("yrange [" ++ g a ++ ":" ++ g b ++ "]") p

/-- Method `Quit`. -/
def Quit (p : Gnuplot) : Res :=
  Emit "quit" p

/-- Method `Test`. -/
def Test (p : Gnuplot) : Res :=
  Emit "test" p

/-- The struct literal built first by `NewGnuplot`. -/
def initial (f : Writer) : Gnuplot :=
  { f := f, indentLevel := 0,
    Color := "-1", LineType := "-1", LineWidth := f64_0_5,
    PointType := "7", PointSize := f64_0_5 }

/-- Constructor `NewGnuplot`; `.ok p` is the returned surface. -/
def NewGnuplot (f : Writer) (imgFile : String) (width height : Int) : Res :=
  (setOutput imgFile width height "background rgb '#FFFFFF' font 'Cambria Math,8'"
    (initial f)).bind fun p =>
  Set "termoption dashed" p

/-! ## Callers

A caller of the package can only call the exported methods, read and assign the
exported `Style` fields, and nest such code in the callbacks it passes.  `Prog`
is the syntax of these call sequences and `run` executes one with the methods
above. -/

/-- Call sequences built from the exported operations of a surface. -/
inductive Prog where
  /-- No call. -/
  | skip
  /-- First `a`, then `b`. -/
  | seq (a b : Prog)
  /-- Caller code that depends on the current `Style` fields. -/
  | readStyle (k : Style → Prog)
  /-- Assignment to the exported `Style` fields. -/
  | setStyle (s : Style)
  | emit (cmd : String)
  | set (cmd : String)
  | unset (cmd : String)
  | plot (body : Prog)
  | with_ (option : String) (body : Prog)
  | multiplot (body : Prog)
  | margin (m : Int)
  | empty
  | plotBorder
  | noTitle
  | lockRatio
  | points (ps : List String)
  | lines (ls : List String)
  | circle (a b r : Float64)
  | xtics (style : String)
  | ytics (style : String)
  | xrange (a b : Float64)
  | yrange (a b : Float64)
  | quit
  | test

/-- Execution of a call sequence on a surface. -/
def run (g : Float64 → String) : Prog → Gnuplot → Res
  | .skip, p => .ok p
  | .seq a b, p => (run g a p).bind (run g b)
  | .readStyle k, p => run g (k p.toStyle) p
  | .setStyle s, p => .ok { p with toStyle := s }
  | .emit cmd, p => Emit cmd p
  | .set cmd, p => Set cmd p
  | .unset cmd, p => Unset cmd p
  | .plot body, p => Plot g (run g body) p
  | .with_ option body, p => With option (run g body) p
  | .multiplot body, p => Multiplot g (run g body) p
  | .margin m, p => Margin m p
  | .empty, p => Empty g p
  | .plotBorder, p => PlotBorder g p
  | .noTitle, p => NoTitle p
  | .lockRatio, p => LockRatio p
  | .points ps, p => Points g ps p
  | .lines ls, p => Lines g ls p
  | .circle a b r, p => Circle g a b r p
  | .xtics style, p => Xtics style p
  | .ytics style, p => Ytics style p
  | .xrange a b, p => Xrange g a b p
  | .yrange a b, p => Yrange g a b p
  | .quit, p => Quit p
  | .test, p => Test p

/-! ## Vocabulary of the statements -/

/-- The indentation written in front of a line at depth `d`. -/
def indent (d : Int) : String :=
  String.join (List.replicate d.toNat "    ")

/-- The chunk written for the command `cmd` at depth `d`. -/
def line (d : Int) (cmd : String) : String :=
  indent d ++ cmd ++ "\n"

/-- The surface `p` after the chunks `ls` were appended to a sink that never
fails. -/
def push (p : Gnuplot) (ls : List String) : Gnuplot :=
  { p with f := { written := p.f.written ++ ls, room := p.f.room } }

/-- A chunk ends with the continuation marker: a backslash right before the
line terminator. -/
def endsCont (chunk : String) : Prop :=
  "\\\n".data <:+ chunk.data

instance (chunk : String) : Decidable (endsCont chunk) := by
  unfold endsCont; infer_instance

/-- A command text ends with a backslash. -/
def endsBackslash (cmd : String) : Prop :=
  cmd.data.getLast? = some '\\'

instance (cmd : String) : Decidable (endsBackslash cmd) := by
  unfold endsBackslash; infer_instance

/-- The three chunks written by `Empty` at depth `d`. -/
def terminator (g : Float64 → String) (d : Int) : List String :=
  [line d "'-' linetype bgnd", line d (g MaxFloat64 ++ " " ++ g MaxFloat64), line d "e"]

/-- The lines `Multiplot` writes before its callback runs, for a call at depth
`d`. -/
def multiplotOpen (d : Int) : List String :=
  [line d "set multiplot",
   line (d + 1) "unset key",
   line (d + 1) "unset tics",
   line (d + 1) "unset border",
   line (d + 1) "unset raxis"]

/-- The lines `Multiplot` writes after its callback returned, for a call at
depth `d`: the border block (`set tics`, `set border`, an empty plot block) and
the closing `unset multiplot`. -/
def multiplotClose (g : Float64 → String) (d : Int) : List String :=
  [line (d + 1) "set tics",
   line (d + 1) "set border",
   line (d + 1) "plot \\",
   line (d + 2) "'-' linetype bgnd",
   line (d + 2) (g MaxFloat64 ++ " " ++ g MaxFloat64),
   line (d + 2) "e",
   line d "unset multiplot"]

/-- The device mapping table of the specification: `.svg` to `svg`, `.png` to
`pngcairo`, `.htm` and `.html` to `canvas`. -/
def deviceFor (ext : String) : String :=
  if ext = ".svg" then "svg" else if ext = ".png" then "pngcairo" else "canvas"

/-- The extensions the specification lists as supported. -/
def Supported (ext : String) : Prop :=
  ext = ".svg" ∨ ext = ".png" ∨ ext = ".htm" ∨ ext = ".html"

instance (ext : String) : Decidable (Supported ext) := by
  unfold Supported; infer_instance

/-- The three lines `NewGnuplot` writes for a supported file. -/
def preamble (imgFile : String) (width height : Int) : List String :=
  ["set terminal " ++ deviceFor (Ext imgFile) ++ " size " ++ fmtInt width ++ "," ++
      fmtInt height ++ " background rgb '#FFFFFF' font 'Cambria Math,8'" ++ "\n",
   "set output '" ++ imgFile ++ "'" ++ "\n",
   "set termoption dashed\n"]

/-- The surface `p` after one successful write of `chunk`. -/
def wrote (p : Gnuplot) (chunk : String) : Gnuplot :=
  { p with f := { written := p.f.written ++ [chunk], room := p.f.room.map Nat.pred } }

/-- A callback leaves the indentation depth as it found it whenever it returns
normally. -/
def DepthPreserving (f : Gnuplot → Res) : Prop :=
  ∀ p q, f p = .ok q → q.indentLevel = p.indentLevel

/-- A callback is safe: when it stops on a fault, the depth is not below the
depth it started from, and started at a depth `≥ 0` the fault is not the panic
of `strings.Repeat`. -/
def Safe (f : Gnuplot → Res) : Prop :=
  ∀ p e q, f p = .fail e q →
    p.indentLevel ≤ q.indentLevel ∧ (0 ≤ p.indentLevel → e ≠ .repeatNegative)

/-- A callback returns normally whenever the sink never fails and the depth is
not negative, and it leaves the sink unfailing. -/
def Total (f : Gnuplot → Res) : Prop :=
  ∀ p, p.f.room = none → 0 ≤ p.indentLevel → ∃ q, f p = .ok q ∧ q.f.room = none

/-- A callback only appends to the sink. -/
def Appends (f : Gnuplot → Res) : Prop :=
  ∀ p q, f p = .ok q → ∃ ls, q.f.written = p.f.written ++ ls

/-- The properties every call sequence of a caller has. -/
structure Tame (f : Gnuplot → Res) : Prop where
  depth : DepthPreserving f
  safe : Safe f
  total : Total f
  appends : Appends f

/-- A call is flat: whatever its outcome, the depth is the one it started
with, and started at a depth `≥ 0` it does not stop on the panic of
`strings.Repeat`. -/
def Flat (f : Gnuplot → Res) : Prop :=
  ∀ p, (f p).state.indentLevel = p.indentLevel ∧
    (0 ≤ p.indentLevel → (f p).fault ≠ some .repeatNegative)

/-- Every line of the script that ends in the continuation marker is followed
by a further line. -/
def WellContinued (script : List String) : Prop :=
  ∀ i (h : i < script.length), endsCont (script.get ⟨i, h⟩) → i + 1 < script.length

/-- The last line of the script, if there is one, does not end in the
continuation marker. -/
def LastPlain (script : List String) : Prop :=
  ∀ l, script.getLast? = some l → ¬ endsCont l

/-- Bodies that only emit clauses: `Points` and `Lines` calls and `Emit` calls of
a text ending in `,\`, in sequence, possibly with reads of and assignments to
the `Style` fields in between. -/
def ClauseOnly : Prog → Prop
  | .skip => True
  | .seq a b => ClauseOnly a ∧ ClauseOnly b
  | .readStyle k => ∀ s, ClauseOnly (k s)
  | .setStyle _ => True
  | .emit cmd => ",\\".data <:+ cmd.data
  | .set _ => False
  | .unset _ => False
  | .plot _ => False
  | .with_ _ _ => False
  | .multiplot _ => False
  | .margin _ => False
  | .empty => False
  | .plotBorder => False
  | .noTitle => False
  | .lockRatio => False
  | .points _ => True
  | .lines _ => True
  | .circle _ _ _ => False
  | .xtics _ => False
  | .ytics _ => False
  | .xrange _ _ => False
  | .yrange _ _ => False
  | .quit => False
  | .test => False

/-- Call sequences in which the operations that leave a line ending in the
continuation marker are used only directly inside a `Plot` body, and a `Plot`
body makes no other call: outside of a `Plot` body there is no `Points` or
`Lines` call with an argument, and no text ending in a backslash is passed to
`Emit`, `Set`, `Unset`, `Xtics`, `Ytics` or as the option of `With`; a `Plot`
body consists of `Points` and `Lines` calls and of `Emit` calls of a text ending
in `,\` only (`ClauseOnly`). -/
def Guarded : Prog → Prop
  | .skip => True
  | .seq a b => Guarded a ∧ Guarded b
  | .readStyle k => ∀ s, Guarded (k s)
  | .setStyle _ => True
  | .emit cmd => ¬ endsBackslash cmd
  | .set cmd => ¬ endsBackslash cmd
  | .unset cmd => ¬ endsBackslash cmd
  | .plot body => ClauseOnly body
  | .with_ option body => ¬ endsBackslash option ∧ Guarded body
  | .multiplot body => Guarded body
  | .margin _ => True
  | .empty => True
  | .plotBorder => True
  | .noTitle => True
  | .lockRatio => True
  | .points ps => ps = []
  | .lines ls => ls = []
  | .circle _ _ _ => True
  | .xtics style => ¬ endsBackslash style
  | .ytics style => ¬ endsBackslash style
  | .xrange _ _ => True
  | .yrange _ _ => True
  | .quit => True
  | .test => True

/-- Where a reader of the script stands: between statements, inside a plot
statement (after its opener or one of its clauses), or inside the inline data
that follows the terminator clause. -/
inductive Scan where
  | top
  | inPlot
  | inData
deriving DecidableEq, Repr

/-- A line without its leading spaces. -/
def strip (l : String) : List Char :=
  l.data.dropWhile (· = ' ')

/-- Reading one line.  Between statements a line ending in the continuation
marker must be the opener `plot \`; inside a plot statement a line ending in the
marker is a further clause of that statement (and not another opener), and the
only line without the marker is the terminator clause `'-' linetype bgnd`; the
inline data runs up to the line `e`.  `none`: the line does not belong there. -/
def scanStep : Scan → String → Option Scan
  | .top, l =>
    if endsCont l then
      if strip l = "plot \\\n".data then some .inPlot else none
    else some .top
  | .inPlot, l =>
    if endsCont l then
      if strip l = "plot \\\n".data then none else some .inPlot
    else if strip l = "'-' linetype bgnd\n".data then some .inData
    else none
  | .inData, l =>
    if strip l = "e\n".data then some .top else some .inData

/-- Reading a script line by line from the position `s`. -/
def scan : Scan → List String → Option Scan
  | s, [] => some s
  | s, l :: rest =>
    match scanStep s l with
    | none => none
    | some s1 => scan s1 rest

/-- Every line of the script that ends in the continuation marker is followed by
a further line of the same statement: read from the start, each such line is the
opener or a clause of a plot statement, is followed by the next clause or by the
terminator clause of that statement, and the script ends between statements. -/
def ByStatement (script : List String) : Prop :=
  scan .top script = some .top

instance (script : List String) : Decidable (ByStatement script) := by
  unfold ByStatement; infer_instance

/-- A call appends whole statements only. -/
def EmitsStatements (f : Gnuplot → Res) : Prop :=
  ∀ p q, f p = .ok q → ∃ ls, q.f.written = p.f.written ++ ls ∧ scan .top ls = some .top

/-- A call appends clauses of the plot statement it is called in only. -/
def EmitsClauses (f : Gnuplot → Res) : Prop :=
  ∀ p q, f p = .ok q → ∃ ls, q.f.written = p.f.written ++ ls ∧ scan .inPlot ls = some .inPlot

/-- A call started at a depth `≥ 0` stops only on a failed write, and then the
state it stops in has a sink with no room left: the one the failed write met. -/
def WriteFaults (f : Gnuplot → Res) : Prop :=
  ∀ p e q, f p = .fail e q → 0 ≤ p.indentLevel → e = .writeError ∧ q.f.room = some 0

/-- The clause of one point under the style `st`: the text
`"<echo <point>" with points <point style>,\`. -/
def pointClause (g : Float64 → String) (st : Style) (point : String) : String :=
  "\"<echo " ++ point ++ "\" with points " ++
    ("pointtype " ++ st.PointType ++ " pointsize " ++ g st.PointSize ++ " linecolor " ++
      st.Color) ++ ",\\"

/-- The clause of one line under the style `st`: the text
`<line> with lines <line style>,\`. -/
def lineClause (g : Float64 → String) (st : Style) (l : String) : String :=
  l ++ " with lines " ++
    ("linetype " ++ st.LineType ++ " linewidth " ++ g st.LineWidth ++ " linecolor " ++
      st.Color) ++ ",\\"

/-- A call is append-only and style-preserving: whenever it returns, the lines
and the text the sink held before are an unchanged front part of what it holds
after, and the five `Style` fields are what they were. -/
def Framed (f : Gnuplot → Res) : Prop :=
  ∀ p q, f p = .ok q →
    (∃ ls, q.f.written = p.f.written ++ ls) ∧
    (∃ t, q.f.content = p.f.content ++ t) ∧
    q.toStyle = p.toStyle

/-- The caller's statement `*p = saved` inside a callback: every field of the
surface is overwritten with a copy taken earlier.  The `io.Writer` in the copy
is the same sink, so what was written stays written. -/
def restoreCopy (saved : Gnuplot) (p : Gnuplot) : Res :=
  .ok { saved with f := p.f }

/-! ## Concrete inputs -/

/-- The constant `3.9`. -/
def f64_3_9 : Float64 := ⟨0x400F333333333333⟩

/-- The constant `-3.9`. -/
def f64_neg_3_9 : Float64 := ⟨0xC00F333333333333⟩

/-- The constant `0` as a `float64`. -/
def f64_0 : Float64 := ⟨0⟩

/-- The constant `3` as a `float64`. -/
def f64_3 : Float64 := ⟨0x4008000000000000⟩

/-- The constant `1.5`. -/
def f64_1_5 : Float64 := ⟨0x3FF8000000000000⟩

/-- What `%g` prints for the float constants above; used where a statement is
evaluated on a concrete input.  Values outside the table print as `?`. -/
def gSample (x : Float64) : String :=
  if x = f64_0_5 then "0.5"
  else if x = f64_3_9 then "3.9"
  else if x = f64_neg_3_9 then "-3.9"
  else if x = f64_0 then "0"
  else if x = f64_3 then "3"
  else if x = f64_1_5 then "1.5"
  else if x = MaxFloat64 then "1.7976931348623157e+308"
  else "?"

/-- An empty sink that never fails. -/
def emptySink : Writer :=
  { written := [], room := none }

/-- The surface of `abcSurface` on a sink that accepts one more write only. -/
def oneWriteLeft : Gnuplot :=
  initial
    { room := some 1,
      written := [
        "set terminal svg size 600,600 background rgb '#FFFFFF' font 'Cambria Math,8'\n",
        "set output 'abc.svg'\n",
        "set termoption dashed\n"] }

/-- The surface returned by `NewGnuplot(f, "abc.svg", 600, 600)` on `emptySink`. -/
def abcSurface : Gnuplot :=
  initial
    { room := none,
      written := [
        "set terminal svg size 600,600 background rgb '#FFFFFF' font 'Cambria Math,8'\n",
        "set output 'abc.svg'\n",
        "set termoption dashed\n"] }

/-- The calls of `TestPlot` between construction and `Quit`, with two of the
ten random points and lines. -/
def testBody : Prog :=
  .seq (.xrange f64_neg_3_9 f64_3_9) <|
  .seq (.yrange f64_neg_3_9 f64_3_9) <|
  .seq (.margin 3) <|
  .seq .lockRatio <|
  .multiplot <|
    .seq (.circle f64_0 f64_0 f64_3) <|
    .with_ "parametric" <| .plot <|
      .readStyle fun saved =>
        .seq (.setStyle { saved with LineType := DOTTED_LINE }) <|
        .seq (.lines ["t, 0", "0, t"]) <|
        .seq (.readStyle fun cur => .setStyle { cur with LineType := saved.LineType }) <|
        .seq (.lines ["t,0.5*t+2.5", "t,-2*t-1"]) <|
        .points ["1 -2", "-0.4 0.8"]

/-- The calls of the end-to-end scenario, after construction: the two ranges,
the margin, the circle, a plot of the single point `"1.0 2.0"`, and `Quit`. -/
def endToEnd : Prog :=
  .seq (.xrange f64_neg_3_9 f64_3_9) <|
  .seq (.yrange f64_neg_3_9 f64_3_9) <|
  .seq (.margin 3) <|
  .seq (.circle f64_0 f64_0 f64_3) <|
  .seq (.plot (.points ["1.0 2.0"])) <|
  .quit

/-! ## Basic facts -/

theorem bind_eq_ok {r : Res} {k : Gnuplot → Res} {q : Gnuplot} :
    r.bind k = .ok q ↔ ∃ m, r = .ok m ∧ k m = .ok q := by
  cases r <;> simp [Res.bind]

theorem bind_eq_fail {r : Res} {k : Gnuplot → Res} {e : Fault} {q : Gnuplot} :
    r.bind k = .fail e q ↔ r = .fail e q ∨ ∃ m, r = .ok m ∧ k m = .fail e q := by
  cases r <;> simp [Res.bind]

theorem Repeat_nonneg {d : Int} (h : 0 ≤ d) : Repeat "    " d = some (indent d) := by
  simp [Repeat, indent, not_lt.mpr h]

theorem Repeat_neg {d : Int} (h : d < 0) : Repeat "    " d = none := by
  simp [Repeat, h]

theorem Emit_neg {cmd : String} {p : Gnuplot} (h : p.indentLevel < 0) :
    Emit cmd p = .fail .repeatNegative p := by
  simp [Emit, Repeat_neg h]

theorem Emit_full {cmd : String} {p : Gnuplot} (h : 0 ≤ p.indentLevel)
    (hr : p.f.room = some 0) : Emit cmd p = .fail .writeError p := by
  simp [Emit, Repeat_nonneg h, WriteString, hr]

theorem Emit_room {cmd : String} {p : Gnuplot} (h : 0 ≤ p.indentLevel)
    (hr : p.f.room ≠ some 0) : Emit cmd p = .ok (wrote p (line p.indentLevel cmd)) := by
  rcases p with ⟨st, ⟨ws, room⟩, d⟩
  rcases room with _ | _ | n
  · simp [Emit, Repeat_nonneg h, WriteString, wrote, line]
  · simp at hr
  · simp [Emit, Repeat_nonneg h, WriteString, wrote, line]

theorem Emit_eq_ok {cmd : String} {p q : Gnuplot} :
    Emit cmd p = .ok q ↔
      0 ≤ p.indentLevel ∧ p.f.room ≠ some 0 ∧ q = wrote p (line p.indentLevel cmd) := by
  by_cases h : 0 ≤ p.indentLevel
  · by_cases hr : p.f.room = some 0
    · simp [Emit_full h hr, hr]
    · simp [Emit_room h hr, h, hr, eq_comm]
  · simp [Emit_neg (not_le.mp h), h]

theorem Emit_eq_fail {cmd : String} {p q : Gnuplot} {e : Fault} :
    Emit cmd p = .fail e q ↔
      q = p ∧ ((e = .repeatNegative ∧ p.indentLevel < 0) ∨
        (e = .writeError ∧ 0 ≤ p.indentLevel ∧ p.f.room = some 0)) := by
  by_cases h : 0 ≤ p.indentLevel
  · by_cases hr : p.f.room = some 0
    · simp [Emit_full h hr, hr, h, not_lt.mpr h, eq_comm, and_comm]
    · simp [Emit_room h hr, h, hr]
  · have h2 := not_le.mp h
    simp [Emit_neg h2, h, h2, eq_comm, and_comm]

@[simp] theorem wrote_indentLevel (p : Gnuplot) (c : String) :
    (wrote p c).indentLevel = p.indentLevel := rfl

@[simp] theorem wrote_toStyle (p : Gnuplot) (c : String) :
    (wrote p c).toStyle = p.toStyle := rfl

@[simp] theorem wrote_written (p : Gnuplot) (c : String) :
    (wrote p c).f.written = p.f.written ++ [c] := rfl

@[simp] theorem wrote_room (p : Gnuplot) (c : String) :
    (wrote p c).f.room = p.f.room.map Nat.pred := rfl

/-! ## Scopes keep the depth balanced -/

theorem tame_Emit (cmd : String) : Tame (Emit cmd) where
  depth := by
    intro p q h
    obtain ⟨_, _, rfl⟩ := Emit_eq_ok.mp h
    rfl
  safe := by
    intro p e q h
    obtain ⟨rfl, h | h⟩ := Emit_eq_fail.mp h
    · exact ⟨le_refl _, fun h0 => absurd h.2 (not_lt.mpr h0)⟩
    · refine ⟨le_refl _, fun _ => ?_⟩
      rw [h.1]; simp
  total := by
    intro p hr h0
    refine ⟨_, Emit_room h0 (by simp [hr]), ?_⟩
    simp [hr]
  appends := by
    intro p q h
    obtain ⟨_, _, rfl⟩ := Emit_eq_ok.mp h
    exact ⟨_, rfl⟩

theorem tame_ok : Tame (fun p => Res.ok p) where
  depth := by intro p q h; cases h; rfl
  safe := by intro p e q h; cases h
  total := by intro p hr _; exact ⟨p, rfl, hr⟩
  appends := by intro p q h; cases h; exact ⟨[], by simp⟩

theorem tame_bind {a b : Gnuplot → Res} (ha : Tame a) (hb : Tame b) :
    Tame (fun p => (a p).bind b) where
  depth := by
    intro p q h
    obtain ⟨m, h1, h2⟩ := bind_eq_ok.mp h
    rw [hb.depth _ _ h2, ha.depth _ _ h1]
  safe := by
    intro p e q h
    rcases bind_eq_fail.mp h with h | ⟨m, h1, h2⟩
    · exact ha.safe _ _ _ h
    · have hd := ha.depth _ _ h1
      have := hb.safe _ _ _ h2
      rw [hd] at this
      exact this
  total := by
    intro p hr h0
    obtain ⟨m, h1, hm⟩ := ha.total p hr h0
    have hd := ha.depth _ _ h1
    obtain ⟨q, h2, hq⟩ := hb.total m hm (by rw [hd]; exact h0)
    exact ⟨q, bind_eq_ok.mpr ⟨m, h1, h2⟩, hq⟩
  appends := by
    intro p q h
    obtain ⟨m, h1, h2⟩ := bind_eq_ok.mp h
    obtain ⟨l1, e1⟩ := ha.appends _ _ h1
    obtain ⟨l2, e2⟩ := hb.appends _ _ h2
    exact ⟨l1 ++ l2, by rw [e2, e1, List.append_assoc]⟩

/-- The shape shared by `With`, `data` and `Plot`: an opening part, the callback
one level deeper, a closing part back at the outer level. -/
theorem tame_scope {a f c : Gnuplot → Res} (ha : Tame a) (hf : Tame f) (hc : Tame c) :
    Tame (fun p => (a p).bind fun p => (f (incIndent p)).bind fun p => c (decIndent p)) where
  depth := by
    intro p q h
    obtain ⟨m1, h1, h⟩ := bind_eq_ok.mp h
    obtain ⟨m2, h2, h3⟩ := bind_eq_ok.mp h
    have e1 := ha.depth _ _ h1
    have e2 := hf.depth _ _ h2
    have e3 := hc.depth _ _ h3
    simp only [incIndent, decIndent] at e2 e3
    omega
  safe := by
    intro p e q h
    rcases bind_eq_fail.mp h with h | ⟨m1, h1, h⟩
    · exact ha.safe _ _ _ h
    · have e1 := ha.depth _ _ h1
      rcases bind_eq_fail.mp h with h | ⟨m2, h2, h3⟩
      · have := hf.safe _ _ _ h
        simp only [incIndent] at this
        exact ⟨by omega, fun h0 => this.2 (by omega)⟩
      · have e2 := hf.depth _ _ h2
        have := hc.safe _ _ _ h3
        simp only [incIndent, decIndent] at e2 this
        exact ⟨by omega, fun h0 => this.2 (by omega)⟩
  total := by
    intro p hr h0
    obtain ⟨m1, h1, hm1⟩ := ha.total p hr h0
    have e1 := ha.depth _ _ h1
    obtain ⟨m2, h2, hm2⟩ := hf.total (incIndent m1) hm1 (by simp only [incIndent]; omega)
    have e2 := hf.depth _ _ h2
    simp only [incIndent] at e2
    obtain ⟨q, h3, hq⟩ := hc.total (decIndent m2) hm2 (by simp only [decIndent]; omega)
    exact ⟨q, bind_eq_ok.mpr ⟨m1, h1, bind_eq_ok.mpr ⟨m2, h2, h3⟩⟩, hq⟩
  appends := by
    intro p q h
    obtain ⟨m1, h1, h⟩ := bind_eq_ok.mp h
    obtain ⟨m2, h2, h3⟩ := bind_eq_ok.mp h
    obtain ⟨l1, e1⟩ := ha.appends _ _ h1
    obtain ⟨l2, e2⟩ := hf.appends _ _ h2
    obtain ⟨l3, e3⟩ := hc.appends _ _ h3
    simp only [incIndent, decIndent] at e2 e3
    exact ⟨l1 ++ (l2 ++ l3), by rw [e3, e2, e1]; simp [List.append_assoc]⟩

theorem tame_Set (cmd : String) : Tame (Set cmd) := tame_Emit _

theorem tame_Unset (cmd : String) : Tame (Unset cmd) := tame_Emit _

theorem tame_Empty (g : Float64 → String) : Tame (Empty g) :=
  tame_bind (tame_Emit _) (tame_bind (tame_Emit _) (tame_Emit _))

theorem tame_With (option : String) {f : Gnuplot → Res} (hf : Tame f) :
    Tame (With option f) :=
  tame_scope (tame_Set option) hf (tame_Unset option)

theorem tame_data (style : String) {f : Gnuplot → Res} (hf : Tame f) :
    Tame (data style f) :=
  tame_scope (tame_Emit _) hf (tame_Emit _)

theorem Res.bind_assoc (r : Res) (k1 k2 : Gnuplot → Res) :
    (r.bind k1).bind k2 = r.bind fun p => (k1 p).bind k2 := by
  cases r <;> rfl

theorem tame_Plot (g : Float64 → String) {f : Gnuplot → Res} (hf : Tame f) :
    Tame (Plot g f) := by
  have h := tame_scope (tame_Emit "plot \\") (tame_bind hf (tame_Empty g)) tame_ok
  have e : Plot g f = fun p => (Emit "plot \\" p).bind fun p =>
      ((fun p => (f p).bind (Empty g)) (incIndent p)).bind fun p => Res.ok (decIndent p) := by
    funext p
    simp only [Plot, Res.bind_assoc]
  rw [e]
  exact h

theorem tame_PlotBorder (g : Float64 → String) : Tame (PlotBorder g) :=
  tame_bind (tame_Set _) (tame_bind (tame_Set _) (tame_Plot g tame_ok))

theorem tame_Multiplot (g : Float64 → String) {f : Gnuplot → Res} (hf : Tame f) :
    Tame (Multiplot g f) :=
  tame_With _ (tame_bind (tame_Unset _) (tame_bind (tame_Unset _) (tame_bind (tame_Unset _)
    (tame_bind (tame_Unset _) (tame_bind hf (tame_PlotBorder g))))))

theorem tame_Points (g : Float64 → String) (ps : List String) : Tame (Points g ps) := by
  induction ps with
  | nil => exact tame_ok
  | cons point rest ih =>
    have e : Points g (point :: rest) = fun p =>
        ((fun p => Emit ("\"<echo " ++ point ++ "\" with points " ++ PointStyle g p ++ ",\\") p)
          p).bind (Points g rest) := by
      funext p; rfl
    rw [e]
    refine tame_bind ?_ ih
    exact ⟨fun p q h => (tame_Emit _).depth p q h, fun p e q h => (tame_Emit _).safe p e q h,
      fun p hr h0 => (tame_Emit _).total p hr h0, fun p q h => (tame_Emit _).appends p q h⟩

theorem tame_Lines (g : Float64 → String) (ls : List String) : Tame (Lines g ls) := by
  induction ls with
  | nil => exact tame_ok
  | cons l rest ih =>
    have e : Lines g (l :: rest) = fun p =>
        ((fun p => Emit (l ++ " with lines " ++ LineStyle g p ++ ",\\") p) p).bind
          (Lines g rest) := by
      funext p; rfl
    rw [e]
    refine tame_bind ?_ ih
    exact ⟨fun p q h => (tame_Emit _).depth p q h, fun p e q h => (tame_Emit _).safe p e q h,
      fun p hr h0 => (tame_Emit _).total p hr h0, fun p q h => (tame_Emit _).appends p q h⟩

theorem tame_Margin (m : Int) : Tame (Margin m) :=
  tame_bind (tame_Set _) (tame_bind (tame_Set _) (tame_bind (tame_Set _) (tame_Set _)))

theorem tame_setStyle (s : Style) : Tame (fun p => Res.ok { p with toStyle := s }) where
  depth := by intro p q h; cases h; rfl
  safe := by intro p e q h; cases h
  total := by intro p hr _; exact ⟨_, rfl, hr⟩
  appends := by intro p q h; cases h; exact ⟨[], by simp⟩

/-- Every call sequence of a caller is tame. -/
theorem tame_run (g : Float64 → String) (prog : Prog) : Tame (run g prog) := by
  induction prog with
  | skip => exact tame_ok
  | seq a b iha ihb => exact tame_bind iha ihb
  | readStyle k ih =>
    exact ⟨fun p q h => (ih p.toStyle).depth p q h, fun p e q h => (ih p.toStyle).safe p e q h,
      fun p hr h0 => (ih p.toStyle).total p hr h0, fun p q h => (ih p.toStyle).appends p q h⟩
  | setStyle s => exact tame_setStyle s
  | emit cmd => exact tame_Emit cmd
  | set cmd => exact tame_Set cmd
  | unset cmd => exact tame_Unset cmd
  | plot body ih => exact tame_Plot g ih
  | with_ option body ih => exact tame_With option ih
  | multiplot body ih => exact tame_Multiplot g ih
  | margin m => exact tame_Margin m
  | empty => exact tame_Empty g
  | plotBorder => exact tame_PlotBorder g
  | noTitle => exact tame_Unset _
  | lockRatio => exact tame_Set _
  | points ps => exact tame_Points g ps
  | lines ls => exact tame_Lines g ls
  | circle a b r => exact tame_Set _
  | xtics style => exact tame_Set _
  | ytics style => exact tame_Set _
  | xrange a b => exact tame_Set _
  | yrange a b => exact tame_Set _
  | quit => exact tame_Emit _
  | test => exact tame_Emit _

theorem depth_bind {a b : Gnuplot → Res} (ha : DepthPreserving a) (hb : DepthPreserving b) :
    DepthPreserving (fun p => (a p).bind b) := by
  intro p q h
  obtain ⟨m, h1, h2⟩ := bind_eq_ok.mp h
  rw [hb _ _ h2, ha _ _ h1]

theorem depth_scope {a f c : Gnuplot → Res} (ha : DepthPreserving a) (hf : DepthPreserving f)
    (hc : DepthPreserving c) :
    DepthPreserving
      (fun p => (a p).bind fun p => (f (incIndent p)).bind fun p => c (decIndent p)) := by
  intro p q h
  obtain ⟨m1, h1, h⟩ := bind_eq_ok.mp h
  obtain ⟨m2, h2, h3⟩ := bind_eq_ok.mp h
  have e1 := ha _ _ h1
  have e2 := hf _ _ h2
  have e3 := hc _ _ h3
  simp only [incIndent, decIndent] at e2 e3
  omega

theorem depth_With (option : String) {f : Gnuplot → Res} (hf : DepthPreserving f) :
    DepthPreserving (With option f) :=
  depth_scope (tame_Set option).depth hf (tame_Unset option).depth

theorem depth_data (style : String) {f : Gnuplot → Res} (hf : DepthPreserving f) :
    DepthPreserving (data style f) :=
  depth_scope (tame_Emit _).depth hf (tame_Emit _).depth

theorem depth_Plot (g : Float64 → String) {f : Gnuplot → Res} (hf : DepthPreserving f) :
    DepthPreserving (Plot g f) := by
  have h := depth_scope (tame_Emit "plot \\").depth (depth_bind hf (tame_Empty g).depth)
    tame_ok.depth
  have e : Plot g f = fun p => (Emit "plot \\" p).bind fun p =>
      ((fun p => (f p).bind (Empty g)) (incIndent p)).bind fun p => Res.ok (decIndent p) := by
    funext p
    simp only [Plot, Res.bind_assoc]
  rw [e]
  exact h

theorem depth_Multiplot (g : Float64 → String) {f : Gnuplot → Res} (hf : DepthPreserving f) :
    DepthPreserving (Multiplot g f) :=
  depth_With _ (depth_bind (tame_Unset _).depth (depth_bind (tame_Unset _).depth
    (depth_bind (tame_Unset _).depth (depth_bind (tame_Unset _).depth
      (depth_bind hf (tame_PlotBorder g).depth)))))

/-- A tame callback called at a depth `≥ 0` on a sink that never fails returns
normally, at the depth it was called at. -/
theorem Tame.returns {f : Gnuplot → Res} (hf : Tame f) (p : Gnuplot)
    (hr : p.f.room = none) (h0 : 0 ≤ p.indentLevel) :
    ∃ r, f p = .ok r ∧ r.indentLevel = p.indentLevel := by
  obtain ⟨r, h, _⟩ := hf.total p hr h0
  exact ⟨r, h, hf.depth _ _ h⟩

/-! ## C1: balanced scopes -/

/-- C1. Balanced scopes. For every callback `f` that leaves the depth as it found
it whenever it returns, the depth after `With(option, f)`, `Plot(f)`,
`Multiplot(f)` and `data(style, f)` return equals the depth before the call.
Every body built from the exported operations (`run g body`) is such a callback,
and with it the four calls do return at the starting depth when that depth is
`≥ 0` and the sink does not fail. -/
theorem balanced_scopes (g : Float64 → String) (option style : String)
    (f : Gnuplot → Res) (body : Prog) (p q : Gnuplot) (hf : DepthPreserving f) :
    (With option f p = .ok q → q.indentLevel = p.indentLevel) ∧
    (Plot g f p = .ok q → q.indentLevel = p.indentLevel) ∧
    (Multiplot g f p = .ok q → q.indentLevel = p.indentLevel) ∧
    (data style f p = .ok q → q.indentLevel = p.indentLevel) ∧
    DepthPreserving (run g body) ∧
    (p.f.room = none → 0 ≤ p.indentLevel →
      (∃ r, With option (run g body) p = .ok r ∧ r.indentLevel = p.indentLevel) ∧
      (∃ r, Plot g (run g body) p = .ok r ∧ r.indentLevel = p.indentLevel) ∧
      (∃ r, Multiplot g (run g body) p = .ok r ∧ r.indentLevel = p.indentLevel) ∧
      (∃ r, data style (run g body) p = .ok r ∧ r.indentLevel = p.indentLevel)) := by
  have hb := tame_run g body
  refine ⟨depth_With option hf p q, depth_Plot g hf p q, depth_Multiplot g hf p q,
    depth_data style hf p q, hb.depth, fun hr h0 => ⟨?_, ?_, ?_, ?_⟩⟩
  · exact (tame_With option hb).returns p hr h0
  · exact (tame_Plot g hb).returns p hr h0
  · exact (tame_Multiplot g hb).returns p hr h0
  · exact (tame_data style hb).returns p hr h0

theorem balanced_scopes_witness :
    DepthPreserving (Points gSample ["1.0 2.0"]) ∧
    (∃ q, With "parametric" (Points gSample ["1.0 2.0"]) abcSurface = .ok q ∧
      q.indentLevel = abcSurface.indentLevel) ∧
    (∃ r, Multiplot gSample (run gSample testBody) abcSurface = .ok r ∧
      r.indentLevel = abcSurface.indentLevel) :=
  ⟨(tame_Points gSample ["1.0 2.0"]).depth,
   ⟨push abcSurface ["set parametric\n",
      "    \"<echo 1.0 2.0\" with points pointtype 7 pointsize 0.5 linecolor -1,\\\n",
      "unset parametric\n"], by decide,
    (balanced_scopes gSample "parametric" "with points" (Points gSample ["1.0 2.0"]) testBody
      abcSurface _ (tame_Points gSample ["1.0 2.0"]).depth).1 (by decide)⟩,
   ((balanced_scopes gSample "parametric" "with points" (Points gSample ["1.0 2.0"]) testBody
      abcSurface abcSurface (tame_Points gSample ["1.0 2.0"]).depth).2.2.2.2.2
        rfl (by decide)).2.2.1⟩

/-! ## C2: the depth is never negative -/

theorem flat_Emit (cmd : String) : Flat (Emit cmd) := by
  intro p
  by_cases h : 0 ≤ p.indentLevel
  · by_cases hr : p.f.room = some 0
    · simp [Emit_full h hr, Res.state, Res.fault]
    · simp [Emit_room h hr, Res.state, Res.fault]
  · have h2 := not_le.mp h
    simp [Emit_neg h2, Res.state, h]

theorem flat_bind {a b : Gnuplot → Res} (ha : Flat a) (hb : Flat b) :
    Flat (fun p => (a p).bind b) := by
  intro p
  have h1 := ha p
  show ((a p).bind b).state.indentLevel = p.indentLevel ∧
    (0 ≤ p.indentLevel → ((a p).bind b).fault ≠ some .repeatNegative)
  cases hap : a p with
  | ok m =>
    rw [hap] at h1
    simp only [Res.state] at h1
    have h2 := hb m
    simp only [Res.bind]
    exact ⟨by rw [h2.1, h1.1], fun h0 => h2.2 (by rw [h1.1]; exact h0)⟩
  | fail e m =>
    rw [hap] at h1
    exact h1

theorem flat_setOutput (file : String) (width height : Int) (style : String) :
    Flat (setOutput file width height style) := by
  have e : setOutput file width height style = fun p =>
      ((fun p => if Ext file = ".svg" then setTerminal "svg" width height style p
        else if Ext file = ".png" then setTerminal "pngcairo" width height style p
        else if Ext file = ".htm" ∨ Ext file = ".html" then
          setTerminal "canvas" width height style p
        else Res.fail (.exit 1 ("Unsupported Format " ++ Ext file ++ "\n")) p) p).bind
        (Emit ("set output '" ++ file ++ "'")) := by
    funext p; rfl
  rw [e]
  refine flat_bind ?_ (flat_Emit _)
  intro p
  dsimp only
  split_ifs
  · exact flat_Emit _ p
  · exact flat_Emit _ p
  · exact flat_Emit _ p
  · simp [Res.state, Res.fault]

theorem flat_NewGnuplot (f : Writer) (imgFile : String) (width height : Int) :
    (NewGnuplot f imgFile width height).state.indentLevel = 0 ∧
    (NewGnuplot f imgFile width height).fault ≠ some .repeatNegative := by
  have h := flat_bind (flat_setOutput imgFile width height
    "background rgb '#FFFFFF' font 'Cambria Math,8'") (flat_Emit ("set " ++ "termoption dashed"))
    (initial f)
  exact ⟨h.1, h.2 (le_refl _)⟩

/-- C2. The indentation counter is 0 at construction (whatever the outcome of
`NewGnuplot`, which never stops on the panic of `strings.Repeat`), and for every
surface `p0` returned by `NewGnuplot` and every sequence and nesting `prog` of
exported operations run on it, the state reached (on normal return or at the
fault that stopped the run) has `indentLevel ≥ 0` and the run never stops on the
panic of `strings.Repeat`: no `Emit` sees a negative count. -/
theorem indent_never_negative (g : Float64 → String) (f : Writer) (imgFile : String)
    (width height : Int) (prog : Prog) (p0 : Gnuplot)
    (h : NewGnuplot f imgFile width height = .ok p0) :
    (initial f).indentLevel = 0 ∧
    (NewGnuplot f imgFile width height).state.indentLevel = 0 ∧
    (NewGnuplot f imgFile width height).fault ≠ some .repeatNegative ∧
    p0.indentLevel = 0 ∧
    0 ≤ (run g prog p0).state.indentLevel ∧
    (run g prog p0).fault ≠ some .repeatNegative := by
  have hn := flat_NewGnuplot f imgFile width height
  have h0 : p0.indentLevel = 0 := by
    have := hn.1
    rw [h] at this
    exact this
  refine ⟨rfl, hn.1, hn.2, h0, ?_⟩
  have ht := tame_run g prog
  cases hr : run g prog p0 with
  | ok q =>
    have := ht.depth _ _ hr
    simp only [Res.state, Res.fault]
    exact ⟨by omega, by simp⟩
  | fail e q =>
    have := ht.safe _ _ _ hr
    simp only [Res.state, Res.fault]
    refine ⟨by omega, ?_⟩
    have h2 := this.2 (by omega)
    simpa using h2

theorem indent_never_negative_witness :
    NewGnuplot emptySink "abc.svg" 600 600 = .ok abcSurface ∧
    0 ≤ (run gSample testBody abcSurface).state.indentLevel ∧
    (run gSample testBody abcSurface).fault ≠ some .repeatNegative :=
  ⟨by decide,
   (indent_never_negative gSample emptySink "abc.svg" 600 600 testBody abcSurface
      (by decide)).2.2.2.2⟩

/-! ## Continuation markers -/

theorem indent_data (d : Int) : ∀ c ∈ (indent d).data, c = ' ' := by
  intro c hc
  simp only [indent, String.data_join, List.map_replicate, List.mem_flatten,
    List.mem_replicate] at hc
  obtain ⟨l, ⟨_, rfl⟩, hc⟩ := hc
  simp at hc
  exact hc

theorem line_data (d : Int) (cmd : String) :
    (line d cmd).data = (indent d).data ++ cmd.data ++ ['\n'] := by
  simp [line, String.data_append]

/-- A written line ends with the continuation marker exactly when its command
text ends with a backslash. -/
theorem endsCont_line (d : Int) (cmd : String) :
    endsCont (line d cmd) ↔ endsBackslash cmd := by
  unfold endsCont endsBackslash
  rw [line_data]
  have hm : "\\\n".data = ['\\'] ++ ['\n'] := rfl
  rw [hm, ← List.reverse_prefix]
  simp only [List.reverse_append, List.reverse_cons, List.reverse_nil, List.nil_append,
    List.singleton_append, List.cons_prefix_cons, true_and]
  rcases List.eq_nil_or_concat cmd.data with h | ⟨t, c, h⟩
  · rw [h]
    simp only [List.reverse_nil, List.nil_append, List.getLast?_nil]
    constructor
    · intro hp
      have hmem : '\\' ∈ (indent d).data := by
        have := hp.subset (List.mem_singleton_self _)
        simpa using this
      have := indent_data d _ hmem
      exact absurd this (by decide)
    · intro h; cases h
  · rw [h]
    simp [List.getLast?_concat, List.cons_prefix_cons, eq_comm]

theorem endsBackslash_append (a b : String) :
    endsBackslash (a ++ b) ↔ if b.data = [] then endsBackslash a else endsBackslash b := by
  unfold endsBackslash
  rw [String.data_append]
  split_ifs with h
  · rw [h, List.append_nil]
  · rw [List.getLast?_append_of_ne_nil _ h]

theorem not_endsCont_line_lit (d : Int) (cmd : String) (h : ¬ endsBackslash cmd) :
    ¬ endsCont (line d cmd) := by
  rw [endsCont_line]; exact h

/-! ## Runs on a sink that never fails -/

@[simp] theorem push_indentLevel (p : Gnuplot) (ls : List String) :
    (push p ls).indentLevel = p.indentLevel := rfl

@[simp] theorem push_toStyle (p : Gnuplot) (ls : List String) :
    (push p ls).toStyle = p.toStyle := rfl

@[simp] theorem push_written (p : Gnuplot) (ls : List String) :
    (push p ls).f.written = p.f.written ++ ls := rfl

@[simp] theorem push_room (p : Gnuplot) (ls : List String) :
    (push p ls).f.room = p.f.room := rfl

@[simp] theorem push_push (p : Gnuplot) (a b : List String) :
    push (push p a) b = push p (a ++ b) := by
  simp [push, List.append_assoc]

@[simp] theorem incIndent_indentLevel (p : Gnuplot) :
    (incIndent p).indentLevel = p.indentLevel + 1 := rfl

@[simp] theorem incIndent_f (p : Gnuplot) : (incIndent p).f = p.f := rfl

@[simp] theorem incIndent_toStyle (p : Gnuplot) : (incIndent p).toStyle = p.toStyle := rfl

@[simp] theorem decIndent_indentLevel (p : Gnuplot) :
    (decIndent p).indentLevel = p.indentLevel - 1 := rfl

@[simp] theorem decIndent_f (p : Gnuplot) : (decIndent p).f = p.f := rfl

@[simp] theorem decIndent_toStyle (p : Gnuplot) : (decIndent p).toStyle = p.toStyle := rfl

theorem Emit_never {p : Gnuplot} (hr : p.f.room = none) (h0 : 0 ≤ p.indentLevel)
    (cmd : String) : Emit cmd p = .ok (push p [line p.indentLevel cmd]) := by
  rw [Emit_room h0 (by simp [hr])]
  simp [wrote, push, hr]

theorem Empty_never (g : Float64 → String) {p : Gnuplot} (hr : p.f.room = none)
    (h0 : 0 ≤ p.indentLevel) : Empty g p = .ok (push p (terminator g p.indentLevel)) := by
  unfold Empty
  rw [Emit_never hr h0]
  simp only [Res.bind]
  rw [Emit_never (by simpa using hr) (by simpa using h0)]
  simp only [Res.bind]
  rw [Emit_never (by simpa using hr) (by simpa using h0)]
  simp [terminator]

theorem Plot_never (g : Float64 → String) {f : Gnuplot → Res} {p r : Gnuplot}
    (hr : p.f.room = none) (h0 : 0 ≤ p.indentLevel)
    (hf : f (incIndent (push p [line p.indentLevel "plot \\"])) = .ok r)
    (hr1 : r.f.room = none) (h1 : 0 ≤ r.indentLevel) :
    Plot g f p = .ok (decIndent (push r (terminator g r.indentLevel))) := by
  unfold Plot
  rw [Emit_never hr h0]
  simp only [Res.bind]
  rw [hf]
  simp only [Res.bind]
  rw [Empty_never g hr1 h1]

theorem With_never (option : String) {f : Gnuplot → Res} {p r : Gnuplot}
    (hr : p.f.room = none) (h0 : 0 ≤ p.indentLevel)
    (hf : f (incIndent (push p [line p.indentLevel ("set " ++ option)])) = .ok r)
    (hr1 : r.f.room = none) (h1 : 1 ≤ r.indentLevel) :
    With option f p =
      .ok (push (decIndent r) [line (r.indentLevel - 1) ("unset " ++ option)]) := by
  unfold With Set Unset
  rw [Emit_never hr h0]
  simp only [Res.bind]
  rw [hf]
  simp only [Res.bind]
  rw [Emit_never (by simpa using hr1) (by simp; omega)]
  simp

/-! ## C3: continuation markers of a plot block -/

/-- C3, as stated, fails: in the block emitted by `Plot` around one `Points`
clause, lines other than the final one lack the continuation marker (the block
ends with the three lines of `Empty`, none of which carries it). -/
theorem plot_markers_counterexample :
    Plot gSample (Points gSample ["1.0 2.0"]) abcSurface =
      .ok (push abcSurface
        ["plot \\\n",
         "    \"<echo 1.0 2.0\" with points pointtype 7 pointsize 0.5 linecolor -1,\\\n",
         "    '-' linetype bgnd\n",
         "    1.7976931348623157e+308 1.7976931348623157e+308\n",
         "    e\n"]) ∧
    ¬ (∀ l ∈ List.dropLast
        ["plot \\\n",
         "    \"<echo 1.0 2.0\" with points pointtype 7 pointsize 0.5 linecolor -1,\\\n",
         "    '-' linetype bgnd\n",
         "    1.7976931348623157e+308 1.7976931348623157e+308\n",
         "    e\n"], endsCont l) := by
  constructor
  · decide
  · decide

/-- C3, amended. Let the callback `f`, run one level deeper right after the
opener, return normally having appended the lines `body`, all ending in the
continuation marker, and leave the depth as it found it.  Then `Plot(f)` (depth
`≥ 0`, sink not failing) returns and has appended exactly: the opener, the lines
`body`, and the three lines of `Empty`.  The opener and every body line end in the
marker; of the three final lines, the first and the last do not, and the data
row does not either unless the rendering of the float itself ends in a
backslash. -/
theorem plot_markers (g : Float64 → String) (f : Gnuplot → Res) (p r : Gnuplot)
    (body : List String)
    (hroom : p.f.room = none) (h0 : 0 ≤ p.indentLevel)
    (hf : f (incIndent (push p [line p.indentLevel "plot \\"])) = .ok r)
    (hbody : r.f.written = p.f.written ++ [line p.indentLevel "plot \\"] ++ body)
    (hcont : ∀ l ∈ body, endsCont l)
    (hdepth : r.indentLevel = p.indentLevel + 1) (hroom1 : r.f.room = none) :
    ∃ q, Plot g f p = .ok q ∧
      q.f.written = p.f.written ++
        ([line p.indentLevel "plot \\"] ++ body ++
          [line (p.indentLevel + 1) "'-' linetype bgnd",
           line (p.indentLevel + 1) (g MaxFloat64 ++ " " ++ g MaxFloat64),
           line (p.indentLevel + 1) "e"]) ∧
      q.indentLevel = p.indentLevel ∧
      (∀ l ∈ [line p.indentLevel "plot \\"] ++ body, endsCont l) ∧
      ¬ endsCont (line (p.indentLevel + 1) "'-' linetype bgnd") ∧
      (¬ endsBackslash (g MaxFloat64) →
        ¬ endsCont (line (p.indentLevel + 1) (g MaxFloat64 ++ " " ++ g MaxFloat64))) ∧
      ¬ endsCont (line (p.indentLevel + 1) "e") := by
  refine ⟨_, Plot_never g hroom h0 hf hroom1 (by omega), ?_, ?_, ?_, ?_, ?_, ?_⟩
  · simp [hbody, hdepth, terminator]
  · simp [hdepth]
  · intro l hl
    rcases List.mem_append.mp hl with hl | hl
    · rw [List.mem_singleton.mp hl, endsCont_line]
      decide
    · exact hcont l hl
  · rw [endsCont_line]; decide
  · intro hg
    rw [endsCont_line, endsBackslash_append]
    split_ifs with h
    · rw [endsBackslash_append]; simp; decide
    · exact hg
  · rw [endsCont_line]; decide

theorem plot_markers_witness :
    (∀ l ∈ ["    \"<echo 1.0 2.0\" with points pointtype 7 pointsize 0.5 linecolor -1,\\\n"],
      endsCont l) ∧
    ∃ q, Plot gSample (Points gSample ["1.0 2.0"]) abcSurface = .ok q ∧
      q.f.written = abcSurface.f.written ++
        ([line abcSurface.indentLevel "plot \\"] ++
          ["    \"<echo 1.0 2.0\" with points pointtype 7 pointsize 0.5 linecolor -1,\\\n"] ++
          [line (abcSurface.indentLevel + 1) "'-' linetype bgnd",
           line (abcSurface.indentLevel + 1) (gSample MaxFloat64 ++ " " ++ gSample MaxFloat64),
           line (abcSurface.indentLevel + 1) "e"]) :=
  ⟨by decide, by
    obtain ⟨q, h1, h2, _⟩ := plot_markers gSample (Points gSample ["1.0 2.0"]) abcSurface
      (incIndent (push abcSurface ["plot \\\n",
        "    \"<echo 1.0 2.0\" with points pointtype 7 pointsize 0.5 linecolor -1,\\\n"]))
      ["    \"<echo 1.0 2.0\" with points pointtype 7 pointsize 0.5 linecolor -1,\\\n"]
      rfl (by decide) (by decide) (by decide) (by decide) (by decide) rfl
    exact ⟨q, h1, h2⟩⟩

/-! ## C4: dangling continuation markers -/

theorem wellContinued_iff (script : List String) :
    WellContinued script ↔ LastPlain script := by
  unfold WellContinued LastPlain
  constructor
  · intro h l hl hc
    rcases List.eq_nil_or_concat script with e | ⟨t, c, e⟩
    · rw [e] at hl; simp at hl
    · subst e
      rw [List.concat_eq_append, List.getLast?_concat, Option.some.injEq] at hl
      subst hl
      have := h t.length (by simp) (by simpa using hc)
      simp at this
  · intro h i hi hc
    by_contra hlt
    have hlast : i = script.length - 1 := by omega
    have : script.getLast? = some (script.get ⟨i, hi⟩) := by
      rw [List.getLast?_eq_getElem?]
      subst hlast
      simp [List.getElem?_eq_getElem hi]
    exact h _ this hc

theorem digitChar_ne_backslash : ∀ k, k < 10 → Nat.digitChar k ≠ '\\' := by
  decide

theorem toDigitsCore_ne_backslash (fuel : Nat) :
    ∀ (n : Nat) (ds : List Char), (∀ c ∈ ds, c ≠ '\\') →
      ∀ c ∈ Nat.toDigitsCore 10 fuel n ds, c ≠ '\\' := by
  induction fuel with
  | zero => intro n ds hds c hc; exact hds c (by simpa [Nat.toDigitsCore] using hc)
  | succ k ih =>
    intro n ds hds c hc
    have hcons : ∀ c ∈ Nat.digitChar (n % 10) :: ds, c ≠ '\\' := by
      intro c hc
      rcases List.mem_cons.mp hc with h | h
      · rw [h]; exact digitChar_ne_backslash _ (Nat.mod_lt _ (by decide))
      · exact hds c h
    simp only [Nat.toDigitsCore] at hc
    split_ifs at hc
    · exact hcons c hc
    · exact ih _ _ hcons c hc

theorem fmtInt_ne_backslash (m : Int) : ∀ c ∈ (fmtInt m).data, c ≠ '\\' := by
  have hrepr : ∀ n : Nat, ∀ c ∈ (Nat.repr n).data, c ≠ '\\' := by
    intro n c hc
    exact toDigitsCore_ne_backslash _ _ [] (by simp) c
      (by simpa [Nat.repr, Nat.toDigits, List.asString] using hc)
  cases m with
  | ofNat n => exact hrepr n
  | negSucc n =>
    intro c hc
    simp only [fmtInt, String.data_append, List.mem_append] at hc
    rcases hc with h | h
    · have : c = '-' := by simpa using h
      rw [this]; decide
    · exact hrepr _ c h

theorem not_endsBackslash_fmtInt (a : String) (m : Int) (ha : ¬ endsBackslash a) :
    ¬ endsBackslash (a ++ fmtInt m) := by
  rw [endsBackslash_append]
  split_ifs with h
  · exact ha
  · intro hb
    unfold endsBackslash at hb
    exact fmtInt_ne_backslash m _ (List.mem_of_getLast?_eq_some hb) rfl

/-- A call ends plainly: whenever it returns, the sink is not empty and its last
line does not end in the continuation marker. -/
theorem lastPlain_Emit {cmd : String} (hb : ¬ endsBackslash cmd) {p q : Gnuplot}
    (h : Emit cmd p = .ok q) : LastPlain q.f.written := by
  obtain ⟨_, _, rfl⟩ := Emit_eq_ok.mp h
  intro l hl
  rw [wrote_written, List.getLast?_concat, Option.some.injEq] at hl
  subst hl
  rw [endsCont_line]
  exact hb

theorem lastPlain_bind {a b : Gnuplot → Res} {p q : Gnuplot}
    (hb : ∀ m, b m = .ok q → LastPlain q.f.written)
    (h : (a p).bind b = .ok q) : LastPlain q.f.written := by
  obtain ⟨m, _, h2⟩ := bind_eq_ok.mp h
  exact hb m h2

theorem lastPlain_Empty (g : Float64 → String) {p q : Gnuplot} (h : Empty g p = .ok q) :
    LastPlain q.f.written :=
  lastPlain_bind (fun _ h => lastPlain_bind (fun _ h => lastPlain_Emit (by decide) h) h) h

theorem lastPlain_Plot (g : Float64 → String) (f : Gnuplot → Res) {p q : Gnuplot}
    (h : Plot g f p = .ok q) : LastPlain q.f.written := by
  unfold Plot at h
  refine lastPlain_bind (fun _ h => lastPlain_bind (fun _ h => ?_) h) h
  obtain ⟨m, h1, h2⟩ := bind_eq_ok.mp h
  cases h2
  show LastPlain m.f.written
  exact lastPlain_Empty g h1

theorem lastPlain_With {option : String} (ho : ¬ endsBackslash option) (f : Gnuplot → Res)
    {p q : Gnuplot} (h : With option f p = .ok q) : LastPlain q.f.written := by
  unfold With at h
  refine lastPlain_bind (fun _ h => lastPlain_bind (fun _ h => ?_) h) h
  refine lastPlain_Emit ?_ h
  rw [endsBackslash_append]
  split_ifs
  · decide
  · exact ho

theorem lastPlain_Margin (m : Int) {p q : Gnuplot} (h : Margin m p = .ok q) :
    LastPlain q.f.written := by
  unfold Margin at h
  refine lastPlain_bind (fun _ h => lastPlain_bind (fun _ h => lastPlain_bind (fun _ h => ?_) h) h) h
  refine lastPlain_Emit ?_ h
  rw [← String.append_assoc]
  exact not_endsBackslash_fmtInt _ m (by decide)

theorem not_endsBackslash_lit (a b : String) (hb : b.data ≠ []) (h : ¬ endsBackslash b) :
    ¬ endsBackslash (a ++ b) := by
  rw [endsBackslash_append, if_neg hb]
  exact h

theorem not_endsBackslash_arg (a b : String) (ha : ¬ endsBackslash a)
    (h : ¬ endsBackslash b) : ¬ endsBackslash (a ++ b) := by
  rw [endsBackslash_append]
  split_ifs
  · exact ha
  · exact h

/-- A guarded call sequence keeps the last line of the sink free of the
continuation marker. -/
theorem guarded_lastPlain (g : Float64 → String) (prog : Prog) :
    Guarded prog → ∀ p q, run g prog p = .ok q →
      LastPlain p.f.written → LastPlain q.f.written := by
  induction prog with
  | skip => intro _ p q h hp; cases h; exact hp
  | seq a b iha ihb =>
    intro hg p q h hp
    obtain ⟨m, h1, h2⟩ := bind_eq_ok.mp h
    exact ihb hg.2 m q h2 (iha hg.1 p m h1 hp)
  | readStyle k ih => intro hg p q h hp; exact ih p.toStyle (hg p.toStyle) p q h hp
  | setStyle s => intro _ p q h hp; cases h; exact hp
  | emit cmd => intro hg p q h _; exact lastPlain_Emit hg h
  | set cmd =>
    intro hg p q h _
    exact lastPlain_Emit (not_endsBackslash_arg _ _ (by decide) hg) h
  | unset cmd =>
    intro hg p q h _
    exact lastPlain_Emit (not_endsBackslash_arg _ _ (by decide) hg) h
  | plot body _ => intro _ p q h _; exact lastPlain_Plot g _ h
  | with_ option body _ => intro hg p q h _; exact lastPlain_With hg.1 _ h
  | multiplot body _ =>
    intro _ p q h _
    simp only [run, Multiplot] at h
    exact lastPlain_With (by decide) _ h
  | margin m => intro _ p q h _; exact lastPlain_Margin m h
  | empty => intro _ p q h _; exact lastPlain_Empty g h
  | plotBorder =>
    intro _ p q h _
    exact lastPlain_bind (fun _ h => lastPlain_bind (fun _ h => lastPlain_Plot g _ h) h) h
  | noTitle => intro _ p q h _; exact lastPlain_Emit (by decide) h
  | lockRatio => intro _ p q h _; exact lastPlain_Emit (by decide) h
  | points ps => intro hg p q h hp; cases hg; cases h; exact hp
  | lines ls => intro hg p q h hp; cases hg; cases h; exact hp
  | circle a b r =>
    intro _ p q h _
    simp only [run, Circle, Xrange, Yrange, Set] at h
    refine lastPlain_Emit ?_ h
    rw [← String.append_assoc]
    exact not_endsBackslash_lit _ _ (by decide) (by decide)
  | xtics style =>
    intro hg p q h _
    refine lastPlain_Emit ?_ h
    exact not_endsBackslash_arg _ _ (by decide) (not_endsBackslash_arg _ _ (by decide) hg)
  | ytics style =>
    intro hg p q h _
    refine lastPlain_Emit ?_ h
    exact not_endsBackslash_arg _ _ (by decide) (not_endsBackslash_arg _ _ (by decide) hg)
  | xrange a b =>
    intro _ p q h _
    simp only [run, Circle, Xrange, Yrange, Set] at h
    refine lastPlain_Emit ?_ h
    rw [← String.append_assoc]
    exact not_endsBackslash_lit _ _ (by decide) (by decide)
  | yrange a b =>
    intro _ p q h _
    simp only [run, Circle, Xrange, Yrange, Set] at h
    refine lastPlain_Emit ?_ h
    rw [← String.append_assoc]
    exact not_endsBackslash_lit _ _ (by decide) (by decide)
  | quit => intro _ p q h _; exact lastPlain_Emit (by decide) h
  | test => intro _ p q h _; exact lastPlain_Emit (by decide) h

theorem lastPlain_NewGnuplot {f : Writer} {imgFile : String} {width height : Int}
    {p0 : Gnuplot} (h : NewGnuplot f imgFile width height = .ok p0) :
    LastPlain p0.f.written :=
  lastPlain_bind (fun _ h => lastPlain_Emit (by decide) h) h

/-! ## C5: the shape of a multiplot block -/

theorem incIndent_push (p : Gnuplot) (ls : List String) :
    incIndent (push p ls) = push (incIndent p) ls := rfl

theorem decIndent_push (p : Gnuplot) (ls : List String) :
    decIndent (push p ls) = push (decIndent p) ls := rfl

theorem Gnuplot.ext4 {p q : Gnuplot} (h1 : p.toStyle = q.toStyle)
    (h2 : p.f.written = q.f.written) (h3 : p.f.room = q.f.room)
    (h4 : p.indentLevel = q.indentLevel) : p = q := by
  rcases p with ⟨ps, ⟨pw, pr⟩, pd⟩
  rcases q with ⟨qs, ⟨qw, qr⟩, qd⟩
  simp only at h1 h2 h3 h4
  subst h1 h2 h3 h4
  rfl

theorem PlotBorder_never (g : Float64 → String) {p : Gnuplot} (hr : p.f.room = none)
    (h0 : 0 ≤ p.indentLevel) :
    PlotBorder g p = .ok (push p
      ([line p.indentLevel "set tics", line p.indentLevel "set border",
        line p.indentLevel "plot \\"] ++ terminator g (p.indentLevel + 1))) := by
  unfold PlotBorder Set
  rw [Emit_never hr h0]
  simp only [Res.bind]
  rw [Emit_never (by simpa using hr) (by simpa using h0)]
  simp only [Res.bind]
  rw [Plot_never g (by simpa using hr) (by simpa using h0) rfl (by simpa using hr)
    (by simp; omega)]
  congr 1
  apply Gnuplot.ext4 <;> simp

theorem Multiplot_never (g : Float64 → String) {f : Gnuplot → Res} {p r : Gnuplot}
    (hr : p.f.room = none) (h0 : 0 ≤ p.indentLevel)
    (hf : f (incIndent (push p
      [line p.indentLevel "set multiplot", line (p.indentLevel + 1) "unset key",
       line (p.indentLevel + 1) "unset tics", line (p.indentLevel + 1) "unset border",
       line (p.indentLevel + 1) "unset raxis"])) = .ok r)
    (hr1 : r.f.room = none) (h1 : r.indentLevel = p.indentLevel + 1) :
    Multiplot g f p = .ok (push (decIndent r)
      ([line (p.indentLevel + 1) "set tics", line (p.indentLevel + 1) "set border",
        line (p.indentLevel + 1) "plot \\"] ++ terminator g (p.indentLevel + 2) ++
        [line p.indentLevel "unset multiplot"])) := by
  have key : ∀ s, s = incIndent (push p
      [line p.indentLevel "set multiplot", line (p.indentLevel + 1) "unset key",
       line (p.indentLevel + 1) "unset tics", line (p.indentLevel + 1) "unset border",
       line (p.indentLevel + 1) "unset raxis"]) →
      (f s).bind (fun p => PlotBorder g p) =
        .ok (push r ([line (p.indentLevel + 1) "set tics", line (p.indentLevel + 1) "set border",
          line (p.indentLevel + 1) "plot \\"] ++ terminator g (p.indentLevel + 2))) := by
    intro s hs
    rw [hs, hf]
    simp only [Res.bind]
    rw [PlotBorder_never g hr1 (by omega), h1, add_assoc]
    rfl
  have hin : (fun p => (NoTitle p).bind fun p => (Unset "tics" p).bind fun p =>
      (Unset "border" p).bind fun p => (Unset "raxis" p).bind fun p =>
      (f p).bind fun p => PlotBorder g p)
      (incIndent (push p [line p.indentLevel ("set " ++ "multiplot")])) =
      .ok (push r ([line (p.indentLevel + 1) "set tics", line (p.indentLevel + 1) "set border",
        line (p.indentLevel + 1) "plot \\"] ++ terminator g (p.indentLevel + 2))) := by
    simp only [NoTitle, Unset]
    rw [Emit_never (by simpa using hr) (by simp; omega)]
    simp only [Res.bind]
    rw [Emit_never (by simpa using hr) (by simp; omega)]
    simp only [Res.bind]
    rw [Emit_never (by simpa using hr) (by simp; omega)]
    simp only [Res.bind]
    rw [Emit_never (by simpa using hr) (by simp; omega)]
    simp only [Res.bind]
    apply key
    apply Gnuplot.ext4 <;> simp
  unfold Multiplot
  rw [With_never "multiplot" hr h0 hin (by simpa using hr1) (by simp; omega)]
  congr 1
  apply Gnuplot.ext4 <;> simp [h1]

/-- C5. `Multiplot(f)`, called at depth `d ≥ 0` on a sink that does not fail,
with a callback that returns normally at the depth it was given having appended
the lines `body`, returns and has appended, in this order: `set multiplot` at
depth `d`; `unset key`, `unset tics`, `unset border`, `unset raxis` at depth
`d + 1`; the lines `body`; `set tics`, `set border` and `plot \` at depth `d + 1`
with the three lines of `Empty` at depth `d + 2`; `unset multiplot` at depth `d`.
Nothing stands between the body and the border block, which occurs once.  Every
body built from the exported operations (`run g prog`) is such a callback. -/
theorem multiplot_emits (g : Float64 → String) (f : Gnuplot → Res) (prog : Prog)
    (p r : Gnuplot) (body : List String)
    (hroom : p.f.room = none) (h0 : 0 ≤ p.indentLevel)
    (hf : f (incIndent (push p (multiplotOpen p.indentLevel))) = .ok r)
    (hbody : r.f.written = p.f.written ++ multiplotOpen p.indentLevel ++ body)
    (hdepth : r.indentLevel = p.indentLevel + 1) (hroom1 : r.f.room = none) :
    (∃ q, Multiplot g f p = .ok q ∧
      q.f.written = p.f.written ++
        (multiplotOpen p.indentLevel ++ body ++ multiplotClose g p.indentLevel) ∧
      q.indentLevel = p.indentLevel) ∧
    (∃ ls r1 q,
      run g prog (incIndent (push p (multiplotOpen p.indentLevel))) = .ok r1 ∧
      r1.f.written = p.f.written ++ multiplotOpen p.indentLevel ++ ls ∧
      Multiplot g (run g prog) p = .ok q ∧
      q.f.written = p.f.written ++
        (multiplotOpen p.indentLevel ++ ls ++ multiplotClose g p.indentLevel) ∧
      q.indentLevel = p.indentLevel) := by
  constructor
  · refine ⟨_, Multiplot_never g hroom h0 hf hroom1 hdepth, ?_, ?_⟩
    · simp [hbody, multiplotClose, terminator]
    · simp [hdepth]
  · have ht := tame_run g prog
    obtain ⟨r1, hrun, hr1⟩ := ht.total (incIndent (push p (multiplotOpen p.indentLevel)))
      (by simpa using hroom) (by simp; omega)
    obtain ⟨ls, hls⟩ := ht.appends _ _ hrun
    have hd := ht.depth _ _ hrun
    simp only [incIndent_f, push_written, incIndent_indentLevel, push_indentLevel] at hls hd
    refine ⟨ls, r1, _, hrun, hls, Multiplot_never g hroom h0 hrun hr1 hd, ?_, ?_⟩
    · simp [hls, multiplotClose, terminator]
    · simp [hd]

theorem multiplot_emits_witness :
    Circle gSample f64_0 f64_0 f64_3 (incIndent (push abcSurface (multiplotOpen 0))) =
      .ok (incIndent (push abcSurface (multiplotOpen 0 ++
        ["    set object circle at 0,0 size 3 fillcolor rgb '#000000' fillstyle empty linewidth 0.2\n"]))) ∧
    ∃ q, Multiplot gSample (Circle gSample f64_0 f64_0 f64_3) abcSurface = .ok q ∧
      q.f.written = abcSurface.f.written ++
        ["set multiplot\n",
         "    unset key\n",
         "    unset tics\n",
         "    unset border\n",
         "    unset raxis\n",
         "    set object circle at 0,0 size 3 fillcolor rgb '#000000' fillstyle empty linewidth 0.2\n",
         "    set tics\n",
         "    set border\n",
         "    plot \\\n",
         "        '-' linetype bgnd\n",
         "        1.7976931348623157e+308 1.7976931348623157e+308\n",
         "        e\n",
         "unset multiplot\n"] :=
  ⟨by decide, by
    obtain ⟨⟨q, h1, h2, _⟩, _⟩ := multiplot_emits gSample (Circle gSample f64_0 f64_0 f64_3)
      .skip abcSurface
      (incIndent (push abcSurface (multiplotOpen 0 ++
        ["    set object circle at 0,0 size 3 fillcolor rgb '#000000' fillstyle empty linewidth 0.2\n"])))
      ["    set object circle at 0,0 size 3 fillcolor rgb '#000000' fillstyle empty linewidth 0.2\n"]
      rfl (by decide) (by decide) (by decide) (by decide) rfl
    exact ⟨q, h1, h2.trans (by decide)⟩⟩

/-! ## C6, C7: construction -/

theorem indent_zero : indent 0 = "" := rfl

theorem line_zero (cmd : String) : line 0 cmd = cmd ++ "\n" := by
  simp [line, indent_zero]

theorem setOutput_supported {file : String} (h : Supported (Ext file)) (width height : Int)
    (style : String) (p : Gnuplot) :
    setOutput file width height style p =
      (setTerminal (deviceFor (Ext file)) width height style p).bind
        (Emit ("set output '" ++ file ++ "'")) := by
  unfold setOutput deviceFor
  rcases h with h | h | h | h <;> simp [h]

theorem setOutput_unsupported {file : String} (h : ¬ Supported (Ext file))
    (width height : Int) (style : String) (p : Gnuplot) :
    setOutput file width height style p =
      .fail (.exit 1 ("Unsupported Format " ++ Ext file ++ "\n")) p := by
  unfold Supported at h
  simp only [not_or] at h
  unfold setOutput
  simp [h.1, h.2.1, h.2.2.1, h.2.2.2, Res.bind]

/-- What a successful construction leaves behind. -/
theorem NewGnuplot_eq_ok {f : Writer} {imgFile : String} {width height : Int} {p : Gnuplot}
    (h : NewGnuplot f imgFile width height = .ok p) :
    Supported (Ext imgFile) ∧ p.toStyle = (initial f).toStyle ∧ p.indentLevel = 0 ∧
    p.f.written = f.written ++ preamble imgFile width height ∧
    (f.room = none → p.f.room = none) := by
  unfold NewGnuplot at h
  by_cases hs : Supported (Ext imgFile)
  · rw [setOutput_supported hs] at h
    simp only [setTerminal, Set, bind_eq_ok, Emit_eq_ok] at h
    obtain ⟨m2, ⟨m1, ⟨_, _, rfl⟩, _, _, rfl⟩, _, _, rfl⟩ := h
    refine ⟨hs, rfl, rfl, ?_, ?_⟩
    · simp only [wrote_written, wrote_indentLevel, preamble, initial, line_zero,
        List.append_assoc, List.singleton_append, List.append_cancel_left_eq, List.cons.injEq,
        and_true]
      simp [String.ext_iff, String.data_append]
    · intro hr
      simp [initial, hr]
  · rw [setOutput_unsupported hs] at h
    simp [Res.bind] at h

theorem NewGnuplot_never (f : Writer) {imgFile : String} (hr : f.room = none)
    (hs : Supported (Ext imgFile)) (width height : Int) :
    ∃ p, NewGnuplot f imgFile width height = .ok p := by
  unfold NewGnuplot
  rw [setOutput_supported hs]
  unfold setTerminal Set
  rw [Emit_never (by simpa [initial] using hr) (by simp [initial])]
  simp only [Res.bind]
  rw [Emit_never (by simpa [initial] using hr) (by simp [initial])]
  simp only [Res.bind]
  rw [Emit_never (by simpa [initial] using hr) (by simp [initial])]
  exact ⟨_, rfl⟩

/-- C6. For every image file whose extension is `.svg`, `.png`, `.htm` or `.html`
and every width and height, `NewGnuplot` on the empty sink returns a surface
whose sink holds exactly three lines, all at indentation 0: first
`set terminal <device> size <width>,<height> <style>` with the device of the
mapping table, second `set output '<file>'` with the path as given, third
`set termoption dashed`.  On any sink, a successful construction appends exactly
these lines, and on a sink that does not fail construction succeeds. -/
theorem construction_preamble (f : Writer) (imgFile : String) (width height : Int)
    (hext : Supported (Ext imgFile)) :
    (∃ p, NewGnuplot emptySink imgFile width height = .ok p ∧
      p.f.written =
        ["set terminal " ++ deviceFor (Ext imgFile) ++ " size " ++ fmtInt width ++ "," ++
           fmtInt height ++ " background rgb '#FFFFFF' font 'Cambria Math,8'" ++ "\n",
         "set output '" ++ imgFile ++ "'" ++ "\n",
         "set termoption dashed\n"] ∧
      p.f.content =
        "set terminal " ++ deviceFor (Ext imgFile) ++ " size " ++ fmtInt width ++ "," ++
           fmtInt height ++ " background rgb '#FFFFFF' font 'Cambria Math,8'" ++ "\n" ++
         ("set output '" ++ imgFile ++ "'" ++ "\n") ++
         "set termoption dashed\n") ∧
    (∀ p, NewGnuplot f imgFile width height = .ok p →
      p.f.written = f.written ++ preamble imgFile width height) ∧
    (f.room = none → ∃ p, NewGnuplot f imgFile width height = .ok p) := by
  refine ⟨?_, fun p h => (NewGnuplot_eq_ok h).2.2.2.1, fun hr => NewGnuplot_never f hr hext _ _⟩
  obtain ⟨p, hp⟩ := NewGnuplot_never emptySink rfl hext width height
  have hw := (NewGnuplot_eq_ok hp).2.2.2.1
  simp only [emptySink, List.nil_append, preamble] at hw
  refine ⟨p, hp, hw, ?_⟩
  simp [Writer.content, hw, String.join]

theorem construction_preamble_witness :
    Supported (Ext "abc.svg") ∧
    ∃ p, NewGnuplot emptySink "abc.svg" 600 600 = .ok p ∧
      p.f.written =
        ["set terminal svg size 600,600 background rgb '#FFFFFF' font 'Cambria Math,8'\n",
         "set output 'abc.svg'\n",
         "set termoption dashed\n"] :=
  ⟨by decide, by
    obtain ⟨⟨p, h1, h2, _⟩, _⟩ := construction_preamble emptySink "abc.svg" 600 600 (by decide)
    exact ⟨p, h1, h2.trans (by decide)⟩⟩

/-- C7. For every image file whose extension is none of `.svg`, `.png`, `.htm`,
`.html`, and every sink, construction stops in the `default` branch of
`setOutput` (after printing `Unsupported Format <ext>` to standard output, exit
status 1): nothing was written, the sink is the one passed in, and no surface is
returned. -/
theorem construction_rejects (f : Writer) (imgFile : String) (width height : Int)
    (hext : ¬ Supported (Ext imgFile)) :
    NewGnuplot f imgFile width height =
      .fail (.exit 1 ("Unsupported Format " ++ Ext imgFile ++ "\n")) (initial f) ∧
    (NewGnuplot f imgFile width height).state.f = f ∧
    (∀ p, NewGnuplot f imgFile width height ≠ .ok p) := by
  have h : NewGnuplot f imgFile width height =
      .fail (.exit 1 ("Unsupported Format " ++ Ext imgFile ++ "\n")) (initial f) := by
    unfold NewGnuplot
    rw [setOutput_unsupported hext]
    rfl
  refine ⟨h, ?_, ?_⟩
  · rw [h]; rfl
  · intro p hp
    rw [h] at hp
    cases hp

theorem construction_rejects_witness :
    ¬ Supported (Ext "abc.bmp") ∧
    NewGnuplot emptySink "abc.bmp" 600 600 =
      .fail (.exit 1 "Unsupported Format .bmp\n") (initial emptySink) ∧
    (NewGnuplot emptySink "abc.bmp" 600 600).state.f = emptySink ∧
    ¬ Supported (Ext "plots.d/abc") ∧
    NewGnuplot emptySink "plots.d/abc" 600 600 =
      .fail (.exit 1 "Unsupported Format \n") (initial emptySink) :=
  ⟨by decide,
   ((construction_rejects emptySink "abc.bmp" 600 600 (by decide)).1).trans (by decide),
   (construction_rejects emptySink "abc.bmp" 600 600 (by decide)).2.1,
   by decide,
   ((construction_rejects emptySink "plots.d/abc" 600 600 (by decide)).1).trans (by decide)⟩

/-! ## C8: style rendering -/

/-- C8. `PointStyle` and `LineStyle` are functions of the `Style` fields alone:
two surfaces that agree on `PointType`, `PointSize` and `Color` give the same
`PointStyle`, two that agree on `LineType`, `LineWidth` and `Color` give the
same `LineStyle`, whatever their sinks, depths and remaining fields; so two
surfaces with equal `Style` give equal strings for both.  (The methods only
read their receiver: the surface after the call is the surface before it.) -/
theorem style_rendering_pure (g : Float64 → String) (p q : Gnuplot) :
    (p.PointType = q.PointType → p.PointSize = q.PointSize → p.Color = q.Color →
      PointStyle g p = PointStyle g q) ∧
    (p.LineType = q.LineType → p.LineWidth = q.LineWidth → p.Color = q.Color →
      LineStyle g p = LineStyle g q) ∧
    (p.toStyle = q.toStyle → PointStyle g p = PointStyle g q ∧ LineStyle g p = LineStyle g q) := by
  refine ⟨?_, ?_, ?_⟩
  · intro h1 h2 h3
    simp only [PointStyle, h1, h2, h3]
  · intro h1 h2 h3
    simp only [LineStyle, h1, h2, h3]
  · intro h
    simp only [PointStyle, LineStyle, h]
    trivial

theorem style_rendering_pure_witness :
    PointStyle gSample
        { abcSurface with PointType := "circle", PointSize := f64_1_5, Color := "red" } =
      "pointtype circle pointsize 1.5 linecolor red" ∧
    PointStyle gSample
        { abcSurface with PointType := "circle", PointSize := f64_1_5, Color := "red" } =
      PointStyle gSample
        { f := emptySink, indentLevel := 2, Color := "red", LineType := DOTTED_LINE,
          LineWidth := f64_3, PointType := "circle", PointSize := f64_1_5 } :=
  ⟨by decide,
   (style_rendering_pure gSample
      { abcSurface with PointType := "circle", PointSize := f64_1_5, Color := "red" }
      { f := emptySink, indentLevel := 2, Color := "red", LineType := DOTTED_LINE,
        LineWidth := f64_3, PointType := "circle", PointSize := f64_1_5 }).1 rfl rfl rfl⟩

/-! ## C9: the end-to-end script -/

theorem ok_bind (p : Gnuplot) (k : Gnuplot → Res) : (Res.ok p).bind k = k p := rfl

theorem endToEnd_run (g : Float64 → String) (p0 : Gnuplot)
    (hr : p0.f.room = none) (hd : p0.indentLevel = 0)
    (hs : p0.toStyle = (initial p0.f).toStyle) :
    run g endToEnd p0 = .ok (push p0
      [line 0 ("set xrange [" ++ g f64_neg_3_9 ++ ":" ++ g f64_3_9 ++ "]"),
       line 0 ("set yrange [" ++ g f64_neg_3_9 ++ ":" ++ g f64_3_9 ++ "]"),
       line 0 "set rmargin 3",
       line 0 "set lmargin 3",
       line 0 "set tmargin 3",
       line 0 "set bmargin 3",
       line 0 ("set object circle at " ++ g f64_0 ++ "," ++ g f64_0 ++ " size " ++ g f64_3 ++
         " fillcolor rgb '#000000' fillstyle empty linewidth 0.2"),
       line 0 "plot \\",
       line 1 ("\"<echo 1.0 2.0\" with points pointtype 7 pointsize " ++ g f64_0_5 ++
         " linecolor -1,\\"),
       line 1 "'-' linetype bgnd",
       line 1 (g MaxFloat64 ++ " " ++ g MaxFloat64),
       line 1 "e",
       line 0 "quit"]) := by
  have h3 : fmtInt 3 = "3" := by decide
  simp [endToEnd, run, Xrange, Yrange, Margin, Circle, Quit, Set, Plot, Points, Empty,
    Emit_never, ok_bind, hr, hd]
  apply Gnuplot.ext4
  · simp
  · simp [PointStyle, hs, initial, h3, line, String.ext_iff, String.data_append]
  · simp
  · simp [hd]

/-- C9. End-to-end: on a surface freshly returned by `NewGnuplot` (sink not
failing), the calls `Xrange(-3.9, 3.9)`, `Yrange(-3.9, 3.9)`, `Margin(3)`,
`Circle(0, 0, 3)`, `Plot` of `Points("1.0 2.0")`, `Quit` return normally and
append exactly thirteen lines, in call order: the xrange line, the yrange line,
the four margin lines, the circle line, then the plot block (opener, one point
clause, the three terminator lines one level deeper) and `quit` last.  With the
renderings `gSample` of the float constants the text is the literal script
below.  In the plot block the opener and the point clause end in the
continuation marker, the terminator clause and the lines after it do not. -/
theorem end_to_end (g : Float64 → String) (f : Writer) (imgFile : String)
    (width height : Int) (p0 : Gnuplot)
    (hnew : NewGnuplot f imgFile width height = .ok p0) (hroom : f.room = none) :
    run g endToEnd p0 = .ok (push p0
      [line 0 ("set xrange [" ++ g f64_neg_3_9 ++ ":" ++ g f64_3_9 ++ "]"),
       line 0 ("set yrange [" ++ g f64_neg_3_9 ++ ":" ++ g f64_3_9 ++ "]"),
       line 0 "set rmargin 3",
       line 0 "set lmargin 3",
       line 0 "set tmargin 3",
       line 0 "set bmargin 3",
       line 0 ("set object circle at " ++ g f64_0 ++ "," ++ g f64_0 ++ " size " ++ g f64_3 ++
         " fillcolor rgb '#000000' fillstyle empty linewidth 0.2"),
       line 0 "plot \\",
       line 1 ("\"<echo 1.0 2.0\" with points pointtype 7 pointsize " ++ g f64_0_5 ++
         " linecolor -1,\\"),
       line 1 "'-' linetype bgnd",
       line 1 (g MaxFloat64 ++ " " ++ g MaxFloat64),
       line 1 "e",
       line 0 "quit"]) ∧
    run gSample endToEnd p0 = .ok (push p0
      ["set xrange [-3.9:3.9]\n",
       "set yrange [-3.9:3.9]\n",
       "set rmargin 3\n",
       "set lmargin 3\n",
       "set tmargin 3\n",
       "set bmargin 3\n",
       "set object circle at 0,0 size 3 fillcolor rgb '#000000' fillstyle empty linewidth 0.2\n",
       "plot \\\n",
       "    \"<echo 1.0 2.0\" with points pointtype 7 pointsize 0.5 linecolor -1,\\\n",
       "    '-' linetype bgnd\n",
       "    1.7976931348623157e+308 1.7976931348623157e+308\n",
       "    e\n",
       "quit\n"]) ∧
    endsCont (line 0 "plot \\") ∧
    endsCont (line 1 ("\"<echo 1.0 2.0\" with points pointtype 7 pointsize " ++ g f64_0_5 ++
      " linecolor -1,\\")) ∧
    ¬ endsCont (line 1 "'-' linetype bgnd") ∧
    ¬ endsCont (line 1 "e") ∧
    ¬ endsCont (line 0 "quit") := by
  obtain ⟨_, hs, hd, _, hr⟩ := NewGnuplot_eq_ok hnew
  have hgen := fun g => endToEnd_run g p0 (hr hroom) hd hs
  refine ⟨hgen g, (hgen gSample).trans (congrArg (fun ls => Res.ok (push p0 ls)) (by decide)),
    ?_, ?_, ?_, ?_, ?_⟩
  · rw [endsCont_line]; decide
  · rw [endsCont_line, endsBackslash_append, if_neg (by decide)]; decide
  · rw [endsCont_line]; decide
  · rw [endsCont_line]; decide
  · rw [endsCont_line]; decide

theorem end_to_end_witness :
    NewGnuplot emptySink "abc.svg" 600 600 = .ok abcSurface ∧
    (run gSample endToEnd abcSurface).state.f.written =
      ["set terminal svg size 600,600 background rgb '#FFFFFF' font 'Cambria Math,8'\n",
       "set output 'abc.svg'\n",
       "set termoption dashed\n",
       "set xrange [-3.9:3.9]\n",
       "set yrange [-3.9:3.9]\n",
       "set rmargin 3\n",
       "set lmargin 3\n",
       "set tmargin 3\n",
       "set bmargin 3\n",
       "set object circle at 0,0 size 3 fillcolor rgb '#000000' fillstyle empty linewidth 0.2\n",
       "plot \\\n",
       "    \"<echo 1.0 2.0\" with points pointtype 7 pointsize 0.5 linecolor -1,\\\n",
       "    '-' linetype bgnd\n",
       "    1.7976931348623157e+308 1.7976931348623157e+308\n",
       "    e\n",
       "quit\n"] :=
  ⟨by decide, by
    rw [(end_to_end gSample emptySink "abc.svg" 600 600 abcSurface (by decide) rfl).2.1]
    decide⟩

/-! ## C10: what one `Emit` writes -/

theorem join_concat (l : List String) (s : String) :
    String.join (l ++ [s]) = String.join l ++ s := by
  apply String.ext
  simp [String.data_join, String.data_append]

theorem indent_spaces (n : Nat) :
    (String.join (List.replicate n "    ")).data = List.replicate (4 * n) ' ' := by
  induction n with
  | zero => simp
  | succ k ih =>
    rw [String.data_join] at ih ⊢
    rw [List.replicate_succ, List.map_cons, List.flatten_cons, ih]
    have : 4 * (k + 1) = 4 * k + 1 + 1 + 1 + 1 := by ring
    rw [this]
    rfl

/-- C10. For every command text `cmd` and every depth `n ≥ 0`, `Emit(cmd)` on a
sink that accepts the write returns normally, and the sink then holds what it
held before followed by exactly one chunk: `n` repetitions of the four-space
unit (that is `4 n` spaces), then `cmd`, then one newline.  The depth and the
`Style` are unchanged. -/
theorem emit_appends (cmd : String) (n : Nat) (p : Gnuplot)
    (hn : p.indentLevel = n) (hroom : p.f.room ≠ some 0) :
    ∃ q, Emit cmd p = .ok q ∧
      q.f.written = p.f.written ++ [String.join (List.replicate n "    ") ++ cmd ++ "\n"] ∧
      q.f.content = p.f.content ++ (String.join (List.replicate n "    ") ++ cmd ++ "\n") ∧
      (String.join (List.replicate n "    ")).data = List.replicate (4 * n) ' ' ∧
      q.indentLevel = p.indentLevel ∧
      q.toStyle = p.toStyle := by
  have h0 : 0 ≤ p.indentLevel := by omega
  refine ⟨_, Emit_room h0 hroom, ?_, ?_, indent_spaces n, rfl, rfl⟩
  · simp [line, indent, hn]
  · simp [Writer.content, join_concat, line, indent, hn]

theorem emit_appends_witness :
    (incIndent abcSurface).indentLevel = (1 : Nat) ∧
    (incIndent abcSurface).f.room ≠ some 0 ∧
    ∃ q, Emit "unset key" (incIndent abcSurface) = .ok q ∧
      q.f.content = abcSurface.f.content ++ "    unset key\n" :=
  ⟨by decide, by decide, by
    obtain ⟨q, h1, _, h2, _⟩ := emit_appends "unset key" 1 (incIndent abcSurface)
      (by decide) (by decide)
    exact ⟨q, h1, h2.trans (by decide)⟩⟩

/-! ## C11, C18: what `With` and `data` write around their callback -/

theorem join_cons (s : String) (l : List String) :
    String.join (s :: l) = s ++ String.join l := by
  apply String.ext
  simp [String.data_join, String.data_append]

/-- One level deeper is one more four-space unit in front. -/
theorem indent_succ {d : Int} (h0 : 0 ≤ d) : indent (d + 1) = "    " ++ indent d := by
  unfold indent
  have : (d + 1).toNat = d.toNat + 1 := by omega
  rw [this, List.replicate_succ, join_cons]

theorem data_never (style : String) {f : Gnuplot → Res} {p r : Gnuplot}
    (hr : p.f.room = none) (h0 : 0 ≤ p.indentLevel)
    (hf : f (incIndent (push p [line p.indentLevel ("'-' " ++ style)])) = .ok r)
    (hr1 : r.f.room = none) (h1 : 1 ≤ r.indentLevel) :
    data style f p = .ok (push (decIndent r) [line (r.indentLevel - 1) "e,\\"]) := by
  unfold data
  rw [Emit_never hr h0]
  simp only [Res.bind]
  rw [hf]
  simp only [Res.bind]
  rw [Emit_never (by simpa using hr1) (by simp; omega)]
  simp

theorem With_room (option : String) {f : Gnuplot → Res} {p r : Gnuplot}
    (h0 : 0 ≤ p.indentLevel) (hr : p.f.room ≠ some 0)
    (hf : f (incIndent (wrote p (line p.indentLevel ("set " ++ option)))) = .ok r)
    (h1 : 1 ≤ r.indentLevel) (hr1 : r.f.room ≠ some 0) :
    With option f p =
      .ok (wrote (decIndent r) (line (r.indentLevel - 1) ("unset " ++ option))) := by
  unfold With Set Unset
  rw [Emit_room h0 hr]
  simp only [Res.bind]
  rw [hf]
  simp only [Res.bind]
  rw [Emit_room (by simp; omega) (by simpa using hr1)]
  rfl

theorem data_room (style : String) {f : Gnuplot → Res} {p r : Gnuplot}
    (h0 : 0 ≤ p.indentLevel) (hr : p.f.room ≠ some 0)
    (hf : f (incIndent (wrote p (line p.indentLevel ("'-' " ++ style)))) = .ok r)
    (h1 : 1 ≤ r.indentLevel) (hr1 : r.f.room ≠ some 0) :
    data style f p = .ok (wrote (decIndent r) (line (r.indentLevel - 1) "e,\\")) := by
  unfold data
  rw [Emit_room h0 hr]
  simp only [Res.bind]
  rw [hf]
  simp only [Res.bind]
  rw [Emit_room (by simp; omega) (by simpa using hr1)]
  rfl

/-- C11, as stated, fails for callbacks that return normally but do not leave
the depth, or room in the sink, as `With` needs them.  First: the callback
`*p = saved` (a copy taken before the call, at depth 0) returns normally, the
decrement then gives depth `-1`, and `Unset` stops on the panic of
`strings.Repeat`: no `unset parametric` is written.  Second: on a sink that
accepts one more write, the callback that does nothing returns normally and the
write of `unset parametric` fails. -/
theorem with_emits_counterexample :
    restoreCopy abcSurface (incIndent (push abcSurface ["set parametric\n"])) =
      .ok (push abcSurface ["set parametric\n"]) ∧
    With "parametric" (restoreCopy abcSurface) abcSurface =
      .fail .repeatNegative
        { push abcSurface ["set parametric\n"] with indentLevel := -1 } ∧
    With "parametric" (fun p => .ok p) oneWriteLeft =
      .fail .writeError
        { oneWriteLeft with
          f := { written := oneWriteLeft.f.written ++ ["set parametric\n"], room := some 0 } } := by
  refine ⟨by decide, by decide, by decide⟩

/-- C11, amended. `With(option, f)`, called at depth `d ≥ 0` on a sink that
accepts the write of `set <option>`, with a callback that returns normally,
leaves the depth as it found it and leaves room in the sink for one more
write: `With` writes `set <option>` at depth `d` first, runs the callback at
depth `d + 1` (a line at that depth carries one more four-space unit than a line
at depth `d`), and returns at depth `d` having written `unset <option>` at depth
`d` last, right after what the callback left in the sink; the same option in
both, each written once.  When the callback appended the lines `body`, the
lines appended by `With` are `set <option>`, `body`, `unset <option>`.  Every
body built from the exported operations (`run g prog`) is such a callback on a
sink that does not fail. -/
theorem with_emits (g : Float64 → String) (option : String) (f : Gnuplot → Res)
    (prog : Prog) (p r : Gnuplot)
    (h0 : 0 ≤ p.indentLevel) (hroom : p.f.room ≠ some 0)
    (hf : f (incIndent (wrote p (line p.indentLevel ("set " ++ option)))) = .ok r)
    (hdepth : r.indentLevel = p.indentLevel + 1) (hroom1 : r.f.room ≠ some 0) :
    (incIndent (wrote p (line p.indentLevel ("set " ++ option)))).indentLevel =
      p.indentLevel + 1 ∧
    (incIndent (wrote p (line p.indentLevel ("set " ++ option)))).f.written =
      p.f.written ++ [line p.indentLevel ("set " ++ option)] ∧
    (∀ cmd, line (p.indentLevel + 1) cmd = "    " ++ line p.indentLevel cmd) ∧
    (∃ q, With option f p = .ok q ∧
      q.f.written = r.f.written ++ [line p.indentLevel ("unset " ++ option)] ∧
      q.indentLevel = p.indentLevel ∧
      (∀ body,
        r.f.written = p.f.written ++ [line p.indentLevel ("set " ++ option)] ++ body →
        q.f.written = p.f.written ++
          ([line p.indentLevel ("set " ++ option)] ++ body ++
            [line p.indentLevel ("unset " ++ option)]))) ∧
    (p.f.room = none →
      (∀ cmd, Emit cmd (incIndent (push p [line p.indentLevel ("set " ++ option)])) =
        .ok (push (incIndent (push p [line p.indentLevel ("set " ++ option)]))
          [line (p.indentLevel + 1) cmd])) ∧
      ∃ ls r1 q,
        run g prog (incIndent (push p [line p.indentLevel ("set " ++ option)])) = .ok r1 ∧
        r1.f.written = p.f.written ++ [line p.indentLevel ("set " ++ option)] ++ ls ∧
        With option (run g prog) p = .ok q ∧
        q.f.written = p.f.written ++
          ([line p.indentLevel ("set " ++ option)] ++ ls ++
            [line p.indentLevel ("unset " ++ option)]) ∧
        q.indentLevel = p.indentLevel) := by
  refine ⟨rfl, rfl, ?_, ?_, ?_⟩
  · intro cmd
    simp only [line, indent_succ h0, String.append_assoc]
  · refine ⟨_, With_room option h0 hroom hf (by omega) hroom1, ?_, ?_, ?_⟩
    · simp [hdepth]
    · simp [hdepth]
    · intro body hb
      simp [hb, hdepth]
  · intro hnone
    constructor
    · intro cmd
      rw [Emit_never (by simpa using hnone) (by simp; omega)]
      rfl
    · have ht := tame_run g prog
      obtain ⟨r1, hrun, hr1⟩ := ht.total
        (incIndent (push p [line p.indentLevel ("set " ++ option)]))
        (by simpa using hnone) (by simp; omega)
      obtain ⟨ls, hls⟩ := ht.appends _ _ hrun
      have hd := ht.depth _ _ hrun
      simp only [incIndent_f, push_written, incIndent_indentLevel, push_indentLevel] at hls hd
      refine ⟨ls, r1, _, hrun, hls, With_never option hnone h0 hrun hr1 (by omega), ?_, ?_⟩
      · simp [hls, hd]
      · simp [hd]

theorem with_emits_witness :
    Points gSample ["1.0 2.0"] (incIndent (wrote abcSurface (line 0 ("set " ++ "parametric")))) =
      .ok (incIndent (push abcSurface ["set parametric\n",
        "    \"<echo 1.0 2.0\" with points pointtype 7 pointsize 0.5 linecolor -1,\\\n"])) ∧
    ∃ q, With "parametric" (Points gSample ["1.0 2.0"]) abcSurface = .ok q ∧
      q.f.written = abcSurface.f.written ++
        ["set parametric\n",
         "    \"<echo 1.0 2.0\" with points pointtype 7 pointsize 0.5 linecolor -1,\\\n",
         "unset parametric\n"] ∧
      q.indentLevel = 0 :=
  ⟨by decide, by
    obtain ⟨_, _, _, ⟨q, h1, h2, h3, _⟩, _⟩ := with_emits gSample "parametric"
      (Points gSample ["1.0 2.0"]) .skip abcSurface
      (incIndent (push abcSurface ["set parametric\n",
        "    \"<echo 1.0 2.0\" with points pointtype 7 pointsize 0.5 linecolor -1,\\\n"]))
      (by decide) (by decide) (by decide) (by decide) (by decide)
    exact ⟨q, h1, h2.trans (by decide), h3⟩⟩

/-- C18, as stated, fails for callbacks that return normally but do not leave
the depth, or room in the sink, as `data` needs them.  First: the callback
`*p = saved` (a copy taken before the call, at depth 0) returns normally, the
decrement then gives depth `-1`, and the final `Emit` stops on the panic of
`strings.Repeat`: no `e,\` line is written.  Second: on a sink that accepts one
more write, the callback that does nothing returns normally and the write of
`e,\` fails. -/
theorem data_emits_counterexample :
    restoreCopy abcSurface (incIndent (push abcSurface ["'-' with points\n"])) =
      .ok (push abcSurface ["'-' with points\n"]) ∧
    data "with points" (restoreCopy abcSurface) abcSurface =
      .fail .repeatNegative
        { push abcSurface ["'-' with points\n"] with indentLevel := -1 } ∧
    data "with points" (fun p => .ok p) oneWriteLeft =
      .fail .writeError
        { oneWriteLeft with
          f := { written := oneWriteLeft.f.written ++ ["'-' with points\n"],
                 room := some 0 } } := by
  refine ⟨by decide, by decide, by decide⟩

/-- C18, amended. `data(style, f)`, called at depth `d ≥ 0` on a sink that
accepts the write of the opening line, with a callback that returns normally,
leaves the depth as it found it and leaves room in the sink for one more
write: `data` writes the opening line `'-' <style>` at depth `d` first, runs the
callback at depth `d + 1`, and returns at depth `d` having written the
end-of-data line `e,\` at depth `d` last, right after what the callback left in
the sink; that line ends in the continuation marker.  When the callback
appended the lines `body`, the lines appended by `data` are the opening line,
`body`, `e,\`.  Every body built from the exported operations is such a
callback on a sink that does not fail. -/
theorem data_emits (g : Float64 → String) (style : String) (f : Gnuplot → Res)
    (prog : Prog) (p r : Gnuplot)
    (h0 : 0 ≤ p.indentLevel) (hroom : p.f.room ≠ some 0)
    (hf : f (incIndent (wrote p (line p.indentLevel ("'-' " ++ style)))) = .ok r)
    (hdepth : r.indentLevel = p.indentLevel + 1) (hroom1 : r.f.room ≠ some 0) :
    (incIndent (wrote p (line p.indentLevel ("'-' " ++ style)))).indentLevel =
      p.indentLevel + 1 ∧
    (incIndent (wrote p (line p.indentLevel ("'-' " ++ style)))).f.written =
      p.f.written ++ [line p.indentLevel ("'-' " ++ style)] ∧
    (∃ q, data style f p = .ok q ∧
      q.f.written = r.f.written ++ [line p.indentLevel "e,\\"] ∧
      q.indentLevel = p.indentLevel ∧
      (∀ body,
        r.f.written = p.f.written ++ [line p.indentLevel ("'-' " ++ style)] ++ body →
        q.f.written = p.f.written ++
          ([line p.indentLevel ("'-' " ++ style)] ++ body ++
            [line p.indentLevel "e,\\"]))) ∧
    endsCont (line p.indentLevel "e,\\") ∧
    (p.f.room = none →
      ∃ ls r1 q,
        run g prog (incIndent (push p [line p.indentLevel ("'-' " ++ style)])) = .ok r1 ∧
        r1.f.written = p.f.written ++ [line p.indentLevel ("'-' " ++ style)] ++ ls ∧
        data style (run g prog) p = .ok q ∧
        q.f.written = p.f.written ++
          ([line p.indentLevel ("'-' " ++ style)] ++ ls ++ [line p.indentLevel "e,\\"]) ∧
        q.indentLevel = p.indentLevel) := by
  refine ⟨rfl, rfl, ?_, ?_, ?_⟩
  · refine ⟨_, data_room style h0 hroom hf (by omega) hroom1, ?_, ?_, ?_⟩
    · simp [hdepth]
    · simp [hdepth]
    · intro body hb
      simp [hb, hdepth]
  · rw [endsCont_line]; decide
  · intro hnone
    have ht := tame_run g prog
    obtain ⟨r1, hrun, hr1⟩ := ht.total
      (incIndent (push p [line p.indentLevel ("'-' " ++ style)]))
      (by simpa using hnone) (by simp; omega)
    obtain ⟨ls, hls⟩ := ht.appends _ _ hrun
    have hd := ht.depth _ _ hrun
    simp only [incIndent_f, push_written, incIndent_indentLevel, push_indentLevel] at hls hd
    refine ⟨ls, r1, _, hrun, hls, data_never style hnone h0 hrun hr1 (by omega), ?_, ?_⟩
    · simp [hls, hd]
    · simp [hd]

theorem data_emits_witness :
    Emit "1 2" (incIndent (wrote abcSurface (line 0 ("'-' " ++ "with points")))) =
      .ok (incIndent (push abcSurface ["'-' with points\n", "    1 2\n"])) ∧
    ∃ q, data "with points" (Emit "1 2") abcSurface = .ok q ∧
      q.f.written = abcSurface.f.written ++
        ["'-' with points\n", "    1 2\n", "e,\\\n"] ∧
      q.indentLevel = 0 :=
  ⟨by decide, by
    obtain ⟨_, _, ⟨q, h1, h2, h3, _⟩, _⟩ := data_emits gSample "with points" (Emit "1 2") .skip
      abcSurface (incIndent (push abcSurface ["'-' with points\n", "    1 2\n"]))
      (by decide) (by decide) (by decide) (by decide) (by decide)
    exact ⟨q, h1, h2.trans (by decide), h3⟩⟩

/-! ## C12: a failed write stops everything -/

theorem wf_Emit (cmd : String) : WriteFaults (Emit cmd) := by
  intro p e q h h0
  obtain ⟨rfl, h | h⟩ := Emit_eq_fail.mp h
  · exact absurd h.2 (not_lt.mpr h0)
  · exact ⟨h.1, h.2.2⟩

theorem wf_ok : WriteFaults (fun p => Res.ok p) := by
  intro p e q h; cases h

theorem wf_bind {a b : Gnuplot → Res} (ha : WriteFaults a) (hd : DepthPreserving a)
    (hb : WriteFaults b) : WriteFaults (fun p => (a p).bind b) := by
  intro p e q h h0
  rcases bind_eq_fail.mp h with h | ⟨m, h1, h2⟩
  · exact ha _ _ _ h h0
  · exact hb _ _ _ h2 (by rw [hd _ _ h1]; exact h0)

theorem wf_scope {a f c : Gnuplot → Res} (ha : WriteFaults a) (hda : DepthPreserving a)
    (hf : WriteFaults f) (hdf : DepthPreserving f) (hc : WriteFaults c) :
    WriteFaults
      (fun p => (a p).bind fun p => (f (incIndent p)).bind fun p => c (decIndent p)) := by
  intro p e q h h0
  rcases bind_eq_fail.mp h with h | ⟨m1, h1, h⟩
  · exact ha _ _ _ h h0
  · have e1 := hda _ _ h1
    rcases bind_eq_fail.mp h with h | ⟨m2, h2, h3⟩
    · exact hf _ _ _ h (by simp only [incIndent]; omega)
    · have e2 := hdf _ _ h2
      simp only [incIndent] at e2
      exact hc _ _ _ h3 (by simp only [decIndent]; omega)

theorem wf_Empty (g : Float64 → String) : WriteFaults (Empty g) :=
  wf_bind (wf_Emit _) (tame_Emit _).depth
    (wf_bind (wf_Emit _) (tame_Emit _).depth (wf_Emit _))

theorem wf_With (option : String) {f : Gnuplot → Res} (hf : WriteFaults f)
    (hd : DepthPreserving f) : WriteFaults (With option f) :=
  wf_scope (wf_Emit _) (tame_Emit _).depth hf hd (wf_Emit _)

theorem wf_Plot (g : Float64 → String) {f : Gnuplot → Res} (hf : WriteFaults f)
    (hd : DepthPreserving f) : WriteFaults (Plot g f) := by
  have h := wf_scope (wf_Emit "plot \\") (tame_Emit _).depth
    (wf_bind hf hd (wf_Empty g)) (depth_bind hd (tame_Empty g).depth) wf_ok
  have e : Plot g f = fun p => (Emit "plot \\" p).bind fun p =>
      ((fun p => (f p).bind (Empty g)) (incIndent p)).bind fun p => Res.ok (decIndent p) := by
    funext p
    simp only [Plot, Res.bind_assoc]
  rw [e]
  exact h

theorem wf_PlotBorder (g : Float64 → String) : WriteFaults (PlotBorder g) :=
  wf_bind (wf_Emit _) (tame_Emit _).depth
    (wf_bind (wf_Emit _) (tame_Emit _).depth (wf_Plot g wf_ok tame_ok.depth))

theorem wf_Multiplot (g : Float64 → String) {f : Gnuplot → Res} (hf : WriteFaults f)
    (hd : DepthPreserving f) : WriteFaults (Multiplot g f) :=
  wf_With _
    (wf_bind (wf_Emit _) (tame_Emit _).depth (wf_bind (wf_Emit _) (tame_Emit _).depth
      (wf_bind (wf_Emit _) (tame_Emit _).depth (wf_bind (wf_Emit _) (tame_Emit _).depth
        (wf_bind hf hd (wf_PlotBorder g))))))
    (depth_bind (tame_Unset _).depth (depth_bind (tame_Unset _).depth
      (depth_bind (tame_Unset _).depth (depth_bind (tame_Unset _).depth
        (depth_bind hd (tame_PlotBorder g).depth)))))

theorem wf_Points (g : Float64 → String) (ps : List String) : WriteFaults (Points g ps) := by
  induction ps with
  | nil => exact wf_ok
  | cons point rest ih =>
    intro p e q h h0
    rcases bind_eq_fail.mp h with h | ⟨m, h1, h2⟩
    · exact wf_Emit _ _ _ _ h h0
    · exact ih _ _ _ h2 (by rw [(tame_Emit _).depth _ _ h1]; exact h0)

theorem wf_Lines (g : Float64 → String) (ls : List String) : WriteFaults (Lines g ls) := by
  induction ls with
  | nil => exact wf_ok
  | cons l rest ih =>
    intro p e q h h0
    rcases bind_eq_fail.mp h with h | ⟨m, h1, h2⟩
    · exact wf_Emit _ _ _ _ h h0
    · exact ih _ _ _ h2 (by rw [(tame_Emit _).depth _ _ h1]; exact h0)

theorem wf_Margin (m : Int) : WriteFaults (Margin m) :=
  wf_bind (wf_Emit _) (tame_Emit _).depth (wf_bind (wf_Emit _) (tame_Emit _).depth
    (wf_bind (wf_Emit _) (tame_Emit _).depth (wf_Emit _)))

/-- Every call sequence of a caller stops only on a failed write. -/
theorem wf_run (g : Float64 → String) (prog : Prog) : WriteFaults (run g prog) := by
  induction prog with
  | skip => exact wf_ok
  | seq a b iha ihb => exact wf_bind iha (tame_run g a).depth ihb
  | readStyle k ih => exact fun p e q h h0 => ih p.toStyle p e q h h0
  | setStyle s => intro p e q h; cases h
  | emit cmd => exact wf_Emit cmd
  | set cmd => exact wf_Emit _
  | unset cmd => exact wf_Emit _
  | plot body ih => exact wf_Plot g ih (tame_run g body).depth
  | with_ option body ih => exact wf_With option ih (tame_run g body).depth
  | multiplot body ih => exact wf_Multiplot g ih (tame_run g body).depth
  | margin m => exact wf_Margin m
  | empty => exact wf_Empty g
  | plotBorder => exact wf_PlotBorder g
  | noTitle => exact wf_Emit _
  | lockRatio => exact wf_Emit _
  | points ps => exact wf_Points g ps
  | lines ls => exact wf_Lines g ls
  | circle a b r => exact wf_Emit _
  | xtics style => exact wf_Emit _
  | ytics style => exact wf_Emit _
  | xrange a b => exact wf_Emit _
  | yrange a b => exact wf_Emit _
  | quit => exact wf_Emit _
  | test => exact wf_Emit _

/-- C12. Fail-fast on sink failure, at a depth `≥ 0`.  `Emit` on a sink with no
room left stops with the write error in the unchanged state, and a fault passes
through every following statement.  `With(option, f)` stops in the unchanged
state when the write of `set <option>` fails, and stops with the fault and in
the very state of the callback when the callback stops: no `unset <option>` is
written and the depth is not decremented.  For a body built from the exported
operations the fault is the write error, the sink has no room left, and the
depth is still at least one above the depth of the call.  Every call sequence
that stops does so on a write error. -/
theorem fail_fast (g : Float64 → String) (option cmd : String) (f : Gnuplot → Res)
    (prog : Prog) (p p1 r : Gnuplot) (e : Fault) (h0 : 0 ≤ p.indentLevel) :
    (p.f.room = some 0 → Emit cmd p = .fail .writeError p) ∧
    (∀ k, (Res.fail e r).bind k = .fail e r) ∧
    (p.f.room = some 0 → With option f p = .fail .writeError p) ∧
    (Set option p = .ok p1 → f (incIndent p1) = .fail e r → With option f p = .fail e r) ∧
    (Set option p = .ok p1 → run g prog (incIndent p1) = .fail e r →
      With option (run g prog) p = .fail e r ∧ e = .writeError ∧ r.f.room = some 0 ∧
      p.indentLevel + 1 ≤ r.indentLevel) ∧
    (run g prog p = .fail e r →
      e = .writeError ∧ r.f.room = some 0 ∧ p.indentLevel ≤ r.indentLevel) := by
  have hbody : ∀ f : Gnuplot → Res, Set option p = .ok p1 → f (incIndent p1) = .fail e r →
      With option f p = .fail e r := by
    intro f h1 h2
    unfold With
    rw [h1]
    simp only [Res.bind, h2]
  refine ⟨fun hr => Emit_full h0 hr, fun k => rfl, ?_, hbody f, ?_, ?_⟩
  · intro hr
    unfold With Set
    rw [Emit_full h0 hr]
    rfl
  · intro h1 h2
    have hd1 : p1.indentLevel = p.indentLevel := (tame_Set option).depth _ _ h1
    have hw := wf_run g prog _ _ _ h2 (by simp only [incIndent]; omega)
    have hs := ((tame_run g prog).safe _ _ _ h2).1
    simp only [incIndent] at hs
    exact ⟨hbody _ h1 h2, hw.1, hw.2, by omega⟩
  · intro h
    have hw := wf_run g prog _ _ _ h h0
    exact ⟨hw.1, hw.2, ((tame_run g prog).safe _ _ _ h).1⟩

theorem fail_fast_witness :
    0 ≤ oneWriteLeft.indentLevel ∧
    With "parametric" (run gSample (.points ["1.0 2.0"])) oneWriteLeft =
      .fail .writeError
        { incIndent oneWriteLeft with
          f := { written := oneWriteLeft.f.written ++ ["set parametric\n"], room := some 0 } } :=
  ⟨by decide,
   ((fail_fast gSample "parametric" "" (fun p => .ok p) (.points ["1.0 2.0"]) oneWriteLeft
      { oneWriteLeft with
        f := { written := oneWriteLeft.f.written ++ ["set parametric\n"], room := some 0 } }
      { incIndent oneWriteLeft with
        f := { written := oneWriteLeft.f.written ++ ["set parametric\n"], room := some 0 } }
      .writeError (by decide)).2.2.2.2.1 (by decide) (by decide)).1⟩

/-! ## C13, C14: point and line series -/

theorem pointClause_eq (g : Float64 → String) (p : Gnuplot) (point : String) :
    pointClause g p.toStyle point =
      "\"<echo " ++ point ++ "\" with points " ++ PointStyle g p ++ ",\\" := rfl

theorem lineClause_eq (g : Float64 → String) (p : Gnuplot) (l : String) :
    lineClause g p.toStyle l = l ++ " with lines " ++ LineStyle g p ++ ",\\" := rfl

theorem Points_eq_ok (g : Float64 → String) (ps : List String) :
    ∀ p q, Points g ps p = .ok q →
      q.f.written = p.f.written ++
        ps.map (fun point => line p.indentLevel (pointClause g p.toStyle point)) ∧
      q.indentLevel = p.indentLevel ∧ q.toStyle = p.toStyle := by
  induction ps with
  | nil => intro p q h; cases h; simp
  | cons point rest ih =>
    intro p q h
    obtain ⟨m, h1, h2⟩ := bind_eq_ok.mp h
    obtain ⟨_, _, rfl⟩ := Emit_eq_ok.mp h1
    obtain ⟨e1, e2, e3⟩ := ih _ _ h2
    refine ⟨?_, e2, e3⟩
    rw [e1]
    simp [pointClause_eq]

theorem Lines_eq_ok (g : Float64 → String) (ls : List String) :
    ∀ p q, Lines g ls p = .ok q →
      q.f.written = p.f.written ++
        ls.map (fun l => line p.indentLevel (lineClause g p.toStyle l)) ∧
      q.indentLevel = p.indentLevel ∧ q.toStyle = p.toStyle := by
  induction ls with
  | nil => intro p q h; cases h; simp
  | cons l rest ih =>
    intro p q h
    obtain ⟨m, h1, h2⟩ := bind_eq_ok.mp h
    obtain ⟨_, _, rfl⟩ := Emit_eq_ok.mp h1
    obtain ⟨e1, e2, e3⟩ := ih _ _ h2
    refine ⟨?_, e2, e3⟩
    rw [e1]
    simp [lineClause_eq]

theorem Points_never (g : Float64 → String) (ps : List String) {p : Gnuplot}
    (hr : p.f.room = none) (h0 : 0 ≤ p.indentLevel) :
    Points g ps p =
      .ok (push p (ps.map (fun point => line p.indentLevel (pointClause g p.toStyle point)))) := by
  obtain ⟨q, h, hq⟩ := (tame_Points g ps).total p hr h0
  obtain ⟨e1, e2, e3⟩ := Points_eq_ok g ps p q h
  rw [h]
  congr 1
  apply Gnuplot.ext4 <;> simp [e1, e2, e3, hq, hr]

theorem Lines_never (g : Float64 → String) (ls : List String) {p : Gnuplot}
    (hr : p.f.room = none) (h0 : 0 ≤ p.indentLevel) :
    Lines g ls p =
      .ok (push p (ls.map (fun l => line p.indentLevel (lineClause g p.toStyle l)))) := by
  obtain ⟨q, h, hq⟩ := (tame_Lines g ls).total p hr h0
  obtain ⟨e1, e2, e3⟩ := Lines_eq_ok g ls p q h
  rw [h]
  congr 1
  apply Gnuplot.ext4 <;> simp [e1, e2, e3, hq, hr]

theorem endsCont_pointClause (g : Float64 → String) (st : Style) (d : Int) (point : String) :
    endsCont (line d (pointClause g st point)) := by
  rw [endsCont_line, pointClause, endsBackslash_append, if_neg (by decide)]
  decide

theorem endsCont_lineClause (g : Float64 → String) (st : Style) (d : Int) (l : String) :
    endsCont (line d (lineClause g st l)) := by
  rw [endsCont_line, lineClause, endsBackslash_append, if_neg (by decide)]
  decide

/-- C13. For every list of `n` strings, `Points` and `Lines`, when they return,
have appended exactly `n` lines, the `i`-th built from the `i`-th input in input
order: for `Points` the text `"<echo <point>" with points <PointStyle()>,\`, for
`Lines` the text `<line> with lines <LineStyle()>,\`, at the current depth.
Every such line ends in the continuation marker, the empty list writes nothing,
and on a sink that does not fail (depth `≥ 0`) both calls return. -/
theorem series_emit (g : Float64 → String) (ps ls : List String) (p q : Gnuplot) :
    (Points g ps p = .ok q →
      q.f.written = p.f.written ++ ps.map (fun point =>
        line p.indentLevel
          ("\"<echo " ++ point ++ "\" with points " ++ PointStyle g p ++ ",\\"))) ∧
    (Lines g ls p = .ok q →
      q.f.written = p.f.written ++ ls.map (fun l =>
        line p.indentLevel (l ++ " with lines " ++ LineStyle g p ++ ",\\"))) ∧
    (p.f.room = none → 0 ≤ p.indentLevel →
      Points g ps p = .ok (push p (ps.map (fun point =>
        line p.indentLevel
          ("\"<echo " ++ point ++ "\" with points " ++ PointStyle g p ++ ",\\")))) ∧
      Lines g ls p = .ok (push p (ls.map (fun l =>
        line p.indentLevel (l ++ " with lines " ++ LineStyle g p ++ ",\\"))))) ∧
    (ps.map (fun point => line p.indentLevel
        ("\"<echo " ++ point ++ "\" with points " ++ PointStyle g p ++ ",\\"))).length =
      ps.length ∧
    (ls.map (fun l => line p.indentLevel
        (l ++ " with lines " ++ LineStyle g p ++ ",\\"))).length = ls.length ∧
    (∀ point, endsCont (line p.indentLevel
        ("\"<echo " ++ point ++ "\" with points " ++ PointStyle g p ++ ",\\"))) ∧
    (∀ l, endsCont (line p.indentLevel (l ++ " with lines " ++ LineStyle g p ++ ",\\"))) ∧
    Points g [] p = .ok p ∧ Lines g [] p = .ok p := by
  refine ⟨fun h => (Points_eq_ok g ps p q h).1, fun h => (Lines_eq_ok g ls p q h).1,
    fun hr h0 => ⟨Points_never g ps hr h0, Lines_never g ls hr h0⟩,
    List.length_map _ _, List.length_map _ _,
    fun point => endsCont_pointClause g p.toStyle _ point,
    fun l => endsCont_lineClause g p.toStyle _ l, rfl, rfl⟩

theorem series_emit_witness :
    Points gSample ["1 -2", "-0.4 0.8"] (incIndent abcSurface) =
      .ok (push (incIndent abcSurface)
        ["    \"<echo 1 -2\" with points pointtype 7 pointsize 0.5 linecolor -1,\\\n",
         "    \"<echo -0.4 0.8\" with points pointtype 7 pointsize 0.5 linecolor -1,\\\n"]) ∧
    Lines gSample ["t, 0", "0, t"] (incIndent abcSurface) =
      .ok (push (incIndent abcSurface)
        ["    t, 0 with lines linetype -1 linewidth 0.5 linecolor -1,\\\n",
         "    0, t with lines linetype -1 linewidth 0.5 linecolor -1,\\\n"]) :=
  ⟨(((series_emit gSample ["1 -2", "-0.4 0.8"] ["t, 0", "0, t"] (incIndent abcSurface)
      abcSurface).2.2.1 rfl (by decide)).1).trans (by decide),
   (((series_emit gSample ["1 -2", "-0.4 0.8"] ["t, 0", "0, t"] (incIndent abcSurface)
      abcSurface).2.2.1 rfl (by decide)).2).trans (by decide)⟩

/-- C14. Style is read when a clause is emitted and never applied to lines
already written.  On a sink that does not fail (depth `≥ 0`): after the style
is set to `s1` and `Lines(a)` (or `Points(a)`) is called, the sink holds the
clauses of `a` rendered with `s1`; after the style is then changed to `s2` and
`Lines(b)` (or `Points(b)`) is called, the sink holds those same lines,
unchanged, followed by the clauses of `b` rendered with `s2`. -/
theorem style_not_retroactive (g : Float64 → String) (s1 s2 : Style) (a b : List String)
    (p : Gnuplot) (hroom : p.f.room = none) (h0 : 0 ≤ p.indentLevel) :
    (∃ m q,
      run g (.seq (.setStyle s1) (.lines a)) p = .ok m ∧
      m.f.written = p.f.written ++ a.map (fun l => line p.indentLevel (lineClause g s1 l)) ∧
      run g (.seq (.setStyle s2) (.lines b)) m = .ok q ∧
      q.f.written = m.f.written ++ b.map (fun l => line p.indentLevel (lineClause g s2 l)) ∧
      q.toStyle = s2) ∧
    (∃ m q,
      run g (.seq (.setStyle s1) (.points a)) p = .ok m ∧
      m.f.written = p.f.written ++
        a.map (fun x => line p.indentLevel (pointClause g s1 x)) ∧
      run g (.seq (.setStyle s2) (.points b)) m = .ok q ∧
      q.f.written = m.f.written ++
        b.map (fun x => line p.indentLevel (pointClause g s2 x)) ∧
      q.toStyle = s2) := by
  have hl : ∀ (st : Style) (xs : List String) (m : Gnuplot), m.f.room = none →
      0 ≤ m.indentLevel → run g (.seq (.setStyle st) (.lines xs)) m =
        .ok (push { m with toStyle := st }
          (xs.map (fun l => line m.indentLevel (lineClause g st l)))) := by
    intro st xs m hr hd
    simp only [run, ok_bind]
    exact Lines_never g xs hr hd
  have hp : ∀ (st : Style) (xs : List String) (m : Gnuplot), m.f.room = none →
      0 ≤ m.indentLevel → run g (.seq (.setStyle st) (.points xs)) m =
        .ok (push { m with toStyle := st }
          (xs.map (fun x => line m.indentLevel (pointClause g st x)))) := by
    intro st xs m hr hd
    simp only [run, ok_bind]
    exact Points_never g xs hr hd
  constructor
  · exact ⟨_, _, hl s1 a p hroom h0, rfl, hl s2 b _ hroom h0, rfl, rfl⟩
  · exact ⟨_, _, hp s1 a p hroom h0, rfl, hp s2 b _ hroom h0, rfl, rfl⟩

theorem style_not_retroactive_witness :
    abcSurface.f.room = none ∧ 0 ≤ abcSurface.indentLevel ∧
    ∃ m q,
      run gSample (.seq (.setStyle { abcSurface.toStyle with LineType := DOTTED_LINE })
        (.lines ["t, 0", "0, t"])) abcSurface = .ok m ∧
      m.f.written = abcSurface.f.written ++
        ["t, 0 with lines linetype 3 linewidth 0.5 linecolor -1,\\\n",
         "0, t with lines linetype 3 linewidth 0.5 linecolor -1,\\\n"] ∧
      run gSample (.seq (.setStyle abcSurface.toStyle) (.lines ["t,0.5*t+2.5"])) m = .ok q ∧
      q.f.written = m.f.written ++
        ["t,0.5*t+2.5 with lines linetype -1 linewidth 0.5 linecolor -1,\\\n"] :=
  ⟨rfl, by decide, by
    obtain ⟨⟨m, q, h1, h2, h3, h4, _⟩, _⟩ := style_not_retroactive gSample
      { abcSurface.toStyle with LineType := DOTTED_LINE } abcSurface.toStyle
      ["t, 0", "0, t"] ["t,0.5*t+2.5"] abcSurface rfl (by decide)
    exact ⟨m, q, h1, h2.trans (by decide), h3, h4.trans (congrArg (m.f.written ++ ·) (by decide))⟩⟩

/-! ## C15: the default style -/

/-- C15. A surface returned by `NewGnuplot` has the default `Style`: `Color` and
`LineType` are `"-1"`, `LineWidth` is `0.5`, `PointType` is `ROUND_POINT`
(`"7"`), `PointSize` is `0.5`.  Before any field is changed, `PointStyle()` is
`pointtype 7 pointsize <0.5> linecolor -1` and `LineStyle()` is
`linetype -1 linewidth <0.5> linecolor -1`, where `<0.5>` is the rendering of
the float `0.5` by `%g`; with that rendering being `0.5` these are the literal
texts `pointtype 7 pointsize 0.5 linecolor -1` and
`linetype -1 linewidth 0.5 linecolor -1`. -/
theorem default_style (g : Float64 → String) (f : Writer) (imgFile : String)
    (width height : Int) (p0 : Gnuplot)
    (hnew : NewGnuplot f imgFile width height = .ok p0) :
    p0.Color = "-1" ∧ p0.LineType = "-1" ∧ p0.LineWidth = f64_0_5 ∧
    p0.PointType = ROUND_POINT ∧ ROUND_POINT = "7" ∧ p0.PointSize = f64_0_5 ∧
    PointStyle g p0 = "pointtype 7 pointsize " ++ g f64_0_5 ++ " linecolor -1" ∧
    LineStyle g p0 = "linetype -1 linewidth " ++ g f64_0_5 ++ " linecolor -1" ∧
    (g f64_0_5 = "0.5" →
      PointStyle g p0 = "pointtype 7 pointsize 0.5 linecolor -1" ∧
      LineStyle g p0 = "linetype -1 linewidth 0.5 linecolor -1") := by
  obtain ⟨_, hs, _⟩ := NewGnuplot_eq_ok hnew
  have hps : PointStyle g p0 = "pointtype 7 pointsize " ++ g f64_0_5 ++ " linecolor -1" := by
    simp only [PointStyle, hs, initial]
    simp [String.ext_iff, String.data_append]
  have hls : LineStyle g p0 = "linetype -1 linewidth " ++ g f64_0_5 ++ " linecolor -1" := by
    simp only [LineStyle, hs, initial]
    simp [String.ext_iff, String.data_append]
  refine ⟨by rw [hs]; rfl, by rw [hs]; rfl, by rw [hs]; rfl, by rw [hs]; rfl, rfl,
    by rw [hs]; rfl, hps, hls, fun hg => ?_⟩
  rw [hps, hls, hg]
  exact ⟨by decide, by decide⟩

theorem default_style_witness :
    NewGnuplot emptySink "abc.svg" 600 600 = .ok abcSurface ∧
    gSample f64_0_5 = "0.5" ∧
    PointStyle gSample abcSurface = "pointtype 7 pointsize 0.5 linecolor -1" ∧
    LineStyle gSample abcSurface = "linetype -1 linewidth 0.5 linecolor -1" :=
  ⟨by decide, by decide,
   ((default_style gSample emptySink "abc.svg" 600 600 abcSurface (by decide)).2.2.2.2.2.2.2.2
      (by decide)).1,
   ((default_style gSample emptySink "abc.svg" 600 600 abcSurface (by decide)).2.2.2.2.2.2.2.2
      (by decide)).2⟩

/-! ## C16: axis ranges are not validated -/

/-- C16. For every pair `(a, b)`, whatever its order, `Xrange(a, b)` at a depth
`≥ 0` on a sink that accepts the write returns having appended exactly the one
line `set xrange [<a>:<b>]`, and `Yrange(a, b)` the one line
`set yrange [<a>:<b>]`, with `a` before `b` as given.  Whether the call returns
or stops does not depend on the arguments at all. -/
theorem range_unvalidated (g : Float64 → String) (a b a1 b1 : Float64) (p : Gnuplot) :
    (0 ≤ p.indentLevel → p.f.room ≠ some 0 →
      Xrange g a b p =
        .ok (wrote p (line p.indentLevel ("set xrange [" ++ g a ++ ":" ++ g b ++ "]"))) ∧
      Yrange g a b p =
        .ok (wrote p (line p.indentLevel ("set yrange [" ++ g a ++ ":" ++ g b ++ "]")))) ∧
    (Xrange g a b p).fault = (Xrange g a1 b1 p).fault ∧
    (Yrange g a b p).fault = (Yrange g a1 b1 p).fault := by
  have hx : ∀ x y : Float64, "set " ++ ("xrange [" ++ g x ++ ":" ++ g y ++ "]") =
      "set xrange [" ++ g x ++ ":" ++ g y ++ "]" := by
    intro x y; simp [String.ext_iff, String.data_append]
  have hy : ∀ x y : Float64, "set " ++ ("yrange [" ++ g x ++ ":" ++ g y ++ "]") =
      "set yrange [" ++ g x ++ ":" ++ g y ++ "]" := by
    intro x y; simp [String.ext_iff, String.data_append]
  have hfault : ∀ c1 c2 : String, (Emit c1 p).fault = (Emit c2 p).fault := by
    intro c1 c2
    by_cases h0 : 0 ≤ p.indentLevel
    · by_cases hr : p.f.room = some 0
      · rw [Emit_full h0 hr, Emit_full h0 hr]
      · rw [Emit_room h0 hr, Emit_room h0 hr]; rfl
    · rw [Emit_neg (not_le.mp h0), Emit_neg (not_le.mp h0)]
  refine ⟨fun h0 hr => ⟨?_, ?_⟩, hfault _ _, hfault _ _⟩
  · unfold Xrange Set
    rw [Emit_room h0 hr, hx]
  · unfold Yrange Set
    rw [Emit_room h0 hr, hy]

theorem range_unvalidated_witness :
    Xrange gSample f64_3_9 f64_neg_3_9 abcSurface =
      .ok (push abcSurface ["set xrange [3.9:-3.9]\n"]) ∧
    Yrange gSample f64_3_9 f64_3_9 abcSurface =
      .ok (push abcSurface ["set yrange [3.9:3.9]\n"]) :=
  ⟨(((range_unvalidated gSample f64_3_9 f64_neg_3_9 f64_0 f64_0 abcSurface).1
      (by decide) (by decide)).1).trans (by decide),
   (((range_unvalidated gSample f64_3_9 f64_3_9 f64_0 f64_0 abcSurface).1
      (by decide) (by decide)).2).trans (by decide)⟩

/-! ## C17: the terminator -/

/-- C17. `Empty`, at a depth `d ≥ 0` on a sink that does not fail, returns
having appended exactly three lines at depth `d`: `'-' linetype bgnd`, one data
row made of the rendering of `math.MaxFloat64` twice with one space between,
and `e`, which does not end in the continuation marker.  `math.MaxFloat64` is the
largest finite `float64`: its bit pattern is the one right below that of
`+Inf`.  `Plot` with an empty body therefore appends exactly four lines: the
opener at depth `d` and these three at depth `d + 1`.  With the rendering
`1.7976931348623157e+308` the data row is that text twice. -/
theorem empty_terminator (g : Float64 → String) (p : Gnuplot)
    (hroom : p.f.room = none) (h0 : 0 ≤ p.indentLevel) :
    Empty g p = .ok (push p
      [line p.indentLevel "'-' linetype bgnd",
       line p.indentLevel (g MaxFloat64 ++ " " ++ g MaxFloat64),
       line p.indentLevel "e"]) ∧
    MaxFloat64.bits + 1 = 0x7FF0000000000000 ∧
    ¬ endsCont (line p.indentLevel "e") ∧
    ¬ endsCont (line p.indentLevel "'-' linetype bgnd") ∧
    Plot g (fun p => .ok p) p = .ok (push p
      [line p.indentLevel "plot \\",
       line (p.indentLevel + 1) "'-' linetype bgnd",
       line (p.indentLevel + 1) (g MaxFloat64 ++ " " ++ g MaxFloat64),
       line (p.indentLevel + 1) "e"]) ∧
    (g MaxFloat64 = "1.7976931348623157e+308" →
      g MaxFloat64 ++ " " ++ g MaxFloat64 =
        "1.7976931348623157e+308 1.7976931348623157e+308") := by
  refine ⟨Empty_never g hroom h0, by decide, ?_, ?_, ?_, fun hg => ?_⟩
  · rw [endsCont_line]; decide
  · rw [endsCont_line]; decide
  · rw [Plot_never g hroom h0 rfl (by simpa using hroom) (by simp; omega)]
    congr 1
    apply Gnuplot.ext4 <;> simp [terminator]
  · rw [hg]; decide

theorem empty_terminator_witness :
    Empty gSample (incIndent abcSurface) = .ok (push (incIndent abcSurface)
      ["    '-' linetype bgnd\n",
       "    1.7976931348623157e+308 1.7976931348623157e+308\n",
       "    e\n"]) ∧
    Plot gSample (fun p => .ok p) abcSurface = .ok (push abcSurface
      ["plot \\\n",
       "    '-' linetype bgnd\n",
       "    1.7976931348623157e+308 1.7976931348623157e+308\n",
       "    e\n"]) :=
  ⟨((empty_terminator gSample (incIndent abcSurface) rfl (by decide)).1).trans (by decide),
   ((empty_terminator gSample abcSurface rfl (by decide)).2.2.2.2.1).trans (by decide)⟩

/-! ## C19: the extension decides the device -/

/-- The scan of `filepath.Ext` returns nothing, or the dot it stopped at followed
by what it had passed: bytes that are neither a dot nor a separator. -/
theorem extScan_spec (rev : List Char) :
    ∀ acc, extScan rev acc = [] ∨
      ∃ pre post, rev = pre ++ '.' :: post ∧ (∀ c ∈ pre, c ≠ '.' ∧ c ≠ '/') ∧
        extScan rev acc = '.' :: (pre.reverse ++ acc) := by
  induction rev with
  | nil => intro acc; exact Or.inl rfl
  | cons c rest ih =>
    intro acc
    by_cases hs : c = '/'
    · left; simp [extScan, hs]
    · by_cases hd : c = '.'
      · right
        refine ⟨[], rest, by simp [hd], by simp, ?_⟩
        simp [extScan, hd]
      · rcases ih (c :: acc) with h | ⟨pre, post, h1, h2, h3⟩
        · left; simp [extScan, hs, hd, h]
        · right
          refine ⟨c :: pre, post, by simp [h1], ?_, ?_⟩
          · intro x hx
            rcases List.mem_cons.mp hx with rfl | hx
            · exact ⟨hd, hs⟩
            · exact h2 x hx
          · simp [extScan, hs, hd, h3]

/-- The extension is empty, or it is the suffix of the path that starts at a dot
and has no dot and no separator after it. -/
theorem Ext_spec (path : String) :
    Ext path = "" ∨
      ∃ stem tail, path.data = stem ++ '.' :: tail ∧ (Ext path).data = '.' :: tail ∧
        ∀ c ∈ tail, c ≠ '.' ∧ c ≠ '/' := by
  rcases extScan_spec path.data.reverse [] with h | ⟨pre, post, h1, h2, h3⟩
  · left
    apply String.ext
    simpa [Ext] using h
  · right
    refine ⟨post.reverse, pre.reverse, ?_, ?_, ?_⟩
    · have := congrArg List.reverse h1
      simpa using this
    · simpa [Ext] using h3
    · intro c hc
      exact h2 c (List.mem_reverse.mp hc)

theorem fault_NewGnuplot_supported (f : Writer) {file : String} (hs : Supported (Ext file))
    (width height : Int) :
    (NewGnuplot f file width height).fault =
      if f.room = some 0 ∨ f.room = some 1 ∨ f.room = some 2 then some .writeError
      else none := by
  unfold NewGnuplot
  rw [setOutput_supported hs]
  rcases f with ⟨ws, room⟩
  rcases room with _ | _ | _ | _ | n <;>
    simp [setTerminal, Set, Emit, Repeat, WriteString, initial, Res.bind, Res.fault]

/-- C19. The device chosen at construction depends only on `filepath.Ext` of the
path, compared exactly.  The extension is the suffix starting at the last dot
of the last path element (or empty).  Two paths with the same extension make
`NewGnuplot` stop or return alike; an unsupported extension stops
construction, a supported one on a sink that does not fail gives the terminal
line of its device and the `set output` line with the path unchanged.
`a.png.svg` selects `svg`, while `A.SVG`, `a.svg.bak`, `a.jpeg` and
`dir.svg/file` are rejected. -/
theorem extension_decides (f : Writer) (file1 file2 : String) (width height : Int)
    (hext : Ext file1 = Ext file2) :
    (NewGnuplot f file1 width height).fault = (NewGnuplot f file2 width height).fault ∧
    (Ext file1 = "" ∨
      ∃ stem tail, file1.data = stem ++ '.' :: tail ∧ (Ext file1).data = '.' :: tail ∧
        ∀ c ∈ tail, c ≠ '.' ∧ c ≠ '/') ∧
    (¬ Supported (Ext file1) →
      NewGnuplot f file1 width height =
        .fail (.exit 1 ("Unsupported Format " ++ Ext file1 ++ "\n")) (initial f)) ∧
    (∀ p, NewGnuplot f file1 width height = .ok p →
      p.f.written = f.written ++
        ["set terminal " ++ deviceFor (Ext file1) ++ " size " ++ fmtInt width ++ "," ++
           fmtInt height ++ " background rgb '#FFFFFF' font 'Cambria Math,8'" ++ "\n",
         "set output '" ++ file1 ++ "'" ++ "\n",
         "set termoption dashed\n"]) ∧
    (Supported (Ext file1) → f.room = none → ∃ p, NewGnuplot f file1 width height = .ok p) ∧
    Ext "a.png.svg" = ".svg" ∧
    NewGnuplot emptySink "a.png.svg" 600 600 = .ok (push (initial emptySink)
      ["set terminal svg size 600,600 background rgb '#FFFFFF' font 'Cambria Math,8'\n",
       "set output 'a.png.svg'\n",
       "set termoption dashed\n"]) ∧
    NewGnuplot emptySink "A.SVG" 600 600 =
      .fail (.exit 1 "Unsupported Format .SVG\n") (initial emptySink) ∧
    NewGnuplot emptySink "a.svg.bak" 600 600 =
      .fail (.exit 1 "Unsupported Format .bak\n") (initial emptySink) ∧
    NewGnuplot emptySink "a.jpeg" 600 600 =
      .fail (.exit 1 "Unsupported Format .jpeg\n") (initial emptySink) ∧
    NewGnuplot emptySink "dir.svg/file" 600 600 =
      .fail (.exit 1 "Unsupported Format \n") (initial emptySink) := by
  refine ⟨?_, Ext_spec file1, ?_, fun p h => (NewGnuplot_eq_ok h).2.2.2.1,
    fun hs hr => NewGnuplot_never f hr hs _ _, by decide, by decide, by decide, by decide,
    by decide, by decide⟩
  · by_cases hs : Supported (Ext file1)
    · rw [fault_NewGnuplot_supported f hs, fault_NewGnuplot_supported f (hext ▸ hs)]
    · have hs2 : ¬ Supported (Ext file2) := hext ▸ hs
      unfold NewGnuplot
      rw [setOutput_unsupported hs, setOutput_unsupported hs2, hext]
  · intro hs
    unfold NewGnuplot
    rw [setOutput_unsupported hs]
    rfl

theorem extension_decides_witness :
    Ext "plots/a.png.svg" = Ext "b.svg" ∧
    (NewGnuplot oneWriteLeft.f "plots/a.png.svg" 600 600).fault =
      (NewGnuplot oneWriteLeft.f "b.svg" 20 10).fault ∧
    (NewGnuplot oneWriteLeft.f "b.svg" 20 10).fault = some .writeError :=
  ⟨by decide,
   by
    have h := (extension_decides oneWriteLeft.f "plots/a.png.svg" "b.svg" 600 600
      (by decide)).1
    exact h.trans (by decide),
   by decide⟩

/-! ## C20: the emitting operations only append and keep the style -/

theorem join_append (l1 l2 : List String) :
    String.join (l1 ++ l2) = String.join l1 ++ String.join l2 := by
  apply String.ext
  simp [String.data_join, String.data_append]

theorem framed_of {f : Gnuplot → Res}
    (h : ∀ p q, f p = .ok q → (∃ ls, q.f.written = p.f.written ++ ls) ∧ q.toStyle = p.toStyle) :
    Framed f := by
  intro p q hq
  obtain ⟨⟨ls, hls⟩, hs⟩ := h p q hq
  exact ⟨⟨ls, hls⟩, ⟨String.join ls, by simp [Writer.content, hls, join_append]⟩, hs⟩

theorem framed_Emit (cmd : String) : Framed (Emit cmd) :=
  framed_of fun p q h => by
    obtain ⟨_, _, rfl⟩ := Emit_eq_ok.mp h
    exact ⟨⟨_, rfl⟩, rfl⟩

theorem framed_ok : Framed (fun p => Res.ok p) :=
  framed_of fun p q h => by
    cases h
    exact ⟨⟨[], by simp⟩, rfl⟩

theorem framed_bind {a b : Gnuplot → Res} (ha : Framed a) (hb : Framed b) :
    Framed (fun p => (a p).bind b) :=
  framed_of fun p q h => by
    obtain ⟨m, h1, h2⟩ := bind_eq_ok.mp h
    obtain ⟨⟨l1, e1⟩, _, s1⟩ := ha _ _ h1
    obtain ⟨⟨l2, e2⟩, _, s2⟩ := hb _ _ h2
    exact ⟨⟨l1 ++ l2, by rw [e2, e1, List.append_assoc]⟩, by rw [s2, s1]⟩

theorem framed_scope {a f c : Gnuplot → Res} (ha : Framed a) (hf : Framed f) (hc : Framed c) :
    Framed (fun p => (a p).bind fun p => (f (incIndent p)).bind fun p => c (decIndent p)) :=
  framed_of fun p q h => by
    obtain ⟨m1, h1, h⟩ := bind_eq_ok.mp h
    obtain ⟨m2, h2, h3⟩ := bind_eq_ok.mp h
    obtain ⟨⟨l1, e1⟩, _, s1⟩ := ha _ _ h1
    obtain ⟨⟨l2, e2⟩, _, s2⟩ := hf _ _ h2
    obtain ⟨⟨l3, e3⟩, _, s3⟩ := hc _ _ h3
    simp only [incIndent_f, decIndent_f, incIndent_toStyle, decIndent_toStyle] at e2 e3 s2 s3
    exact ⟨⟨l1 ++ (l2 ++ l3), by rw [e3, e2, e1]; simp [List.append_assoc]⟩,
      by rw [s3, s2, s1]⟩

theorem framed_Empty (g : Float64 → String) : Framed (Empty g) :=
  framed_bind (framed_Emit _) (framed_bind (framed_Emit _) (framed_Emit _))

theorem framed_With (option : String) {f : Gnuplot → Res} (hf : Framed f) :
    Framed (With option f) :=
  framed_scope (framed_Emit _) hf (framed_Emit _)

theorem framed_Plot (g : Float64 → String) {f : Gnuplot → Res} (hf : Framed f) :
    Framed (Plot g f) := by
  have h := framed_scope (framed_Emit "plot \\") (framed_bind hf (framed_Empty g)) framed_ok
  have e : Plot g f = fun p => (Emit "plot \\" p).bind fun p =>
      ((fun p => (f p).bind (Empty g)) (incIndent p)).bind fun p => Res.ok (decIndent p) := by
    funext p
    simp only [Plot, Res.bind_assoc]
  rw [e]
  exact h

theorem framed_PlotBorder (g : Float64 → String) : Framed (PlotBorder g) :=
  framed_bind (framed_Emit _) (framed_bind (framed_Emit _) (framed_Plot g framed_ok))

theorem framed_Multiplot (g : Float64 → String) {f : Gnuplot → Res} (hf : Framed f) :
    Framed (Multiplot g f) :=
  framed_With _ (framed_bind (framed_Emit _) (framed_bind (framed_Emit _)
    (framed_bind (framed_Emit _) (framed_bind (framed_Emit _)
      (framed_bind hf (framed_PlotBorder g))))))

theorem framed_Points (g : Float64 → String) (ps : List String) : Framed (Points g ps) :=
  framed_of fun p q h => by
    obtain ⟨e1, _, e3⟩ := Points_eq_ok g ps p q h
    exact ⟨⟨_, e1⟩, e3⟩

theorem framed_Lines (g : Float64 → String) (ls : List String) : Framed (Lines g ls) :=
  framed_of fun p q h => by
    obtain ⟨e1, _, e3⟩ := Lines_eq_ok g ls p q h
    exact ⟨⟨_, e1⟩, e3⟩

theorem framed_Margin (m : Int) : Framed (Margin m) :=
  framed_bind (framed_Emit _) (framed_bind (framed_Emit _)
    (framed_bind (framed_Emit _) (framed_Emit _)))

theorem plot_block_value :
    Plot gSample (Points gSample ["1.0 2.0"]) abcSurface =
      .ok (push abcSurface
        ["plot \\\n",
         "    \"<echo 1.0 2.0\" with points pointtype 7 pointsize 0.5 linecolor -1,\\\n",
         "    '-' linetype bgnd\n",
         "    1.7976931348623157e+308 1.7976931348623157e+308\n",
         "    e\n"]) := by
  decide

/-- C20. Every exported emitting operation is append-only and
style-preserving: whenever it returns, the lines and the text the sink held
before are an unchanged front part of what it holds after, and the five `Style`
fields are unchanged.  This holds for `Emit`, `Set`, `Unset`, `Margin`,
`Circle`, `LockRatio`, `Xtics`, `Ytics`, `Xrange`, `Yrange`, `NoTitle`,
`Points`, `Lines`, `Empty`, `PlotBorder`, `Quit`, `Test`, and for `With`, `Plot`
and `Multiplot` given a callback with the same property. -/
theorem emitting_frame (g : Float64 → String) (cmd style option : String) (m : Int)
    (a b r : Float64) (ps ls : List String) (f : Gnuplot → Res) (hf : Framed f) :
    Framed (Emit cmd) ∧ Framed (Set cmd) ∧ Framed (Unset cmd) ∧ Framed (Margin m) ∧
    Framed (Circle g a b r) ∧ Framed LockRatio ∧ Framed (Xtics style) ∧
    Framed (Ytics style) ∧ Framed (Xrange g a b) ∧ Framed (Yrange g a b) ∧
    Framed NoTitle ∧ Framed (Points g ps) ∧ Framed (Lines g ls) ∧ Framed (Empty g) ∧
    Framed (PlotBorder g) ∧ Framed Quit ∧ Framed Test ∧
    Framed (With option f) ∧ Framed (Plot g f) ∧ Framed (Multiplot g f) :=
  ⟨framed_Emit _, framed_Emit _, framed_Emit _, framed_Margin m, framed_Emit _,
   framed_Emit _, framed_Emit _, framed_Emit _, framed_Emit _, framed_Emit _,
   framed_Emit _, framed_Points g ps, framed_Lines g ls, framed_Empty g,
   framed_PlotBorder g, framed_Emit _, framed_Emit _,
   framed_With option hf, framed_Plot g hf, framed_Multiplot g hf⟩

theorem emitting_frame_witness :
    Framed (Points gSample ["1.0 2.0"]) ∧
    ∃ q, Plot gSample (Points gSample ["1.0 2.0"]) abcSurface = .ok q ∧
      (∃ t, q.f.content = abcSurface.f.content ++ t) ∧
      q.toStyle = abcSurface.toStyle :=
  ⟨framed_Points gSample ["1.0 2.0"],
   _, plot_block_value,
   ((emitting_frame gSample "" "" "" 0 f64_0 f64_0 f64_0 [] []
      (Points gSample ["1.0 2.0"]) (framed_Points gSample ["1.0 2.0"])).2.2.2.2.2.2.2.2.2.2.2.2.2.2.2.2.2.2.1
        _ _ plot_block_value).2⟩

/-! ## C4: continuation markers and the statements of the script -/

theorem dropWhile_append_all {α : Type} (t : α → Bool) :
    ∀ (l r : List α), (∀ c ∈ l, t c = true) → (l ++ r).dropWhile t = r.dropWhile t := by
  intro l
  induction l with
  | nil => intro r _; rfl
  | cons a rest ih =>
    intro r h
    have ha : t a = true := h a (List.mem_cons_self _ _)
    simp only [List.cons_append, List.dropWhile_cons, ha, if_true]
    exact ih r (fun c hc => h c (List.mem_cons_of_mem _ hc))

theorem strip_line (d : Int) (cmd : String) :
    strip (line d cmd) = (cmd.data ++ ['\n']).dropWhile (· = ' ') := by
  unfold strip
  rw [line_data, List.append_assoc]
  apply dropWhile_append_all
  intro c hc
  simp [indent_data d c hc]

theorem scanStep_top_plain {l : String} (h : ¬ endsCont l) : scanStep .top l = some .top := by
  simp [scanStep, h]

theorem scanStep_top_line (d : Int) {cmd : String} (h : ¬ endsBackslash cmd) :
    scanStep .top (line d cmd) = some .top :=
  scanStep_top_plain (by rw [endsCont_line]; exact h)

theorem scanStep_top_opener (d : Int) : scanStep .top (line d "plot \\") = some .inPlot := by
  have h1 : endsCont (line d "plot \\") := by rw [endsCont_line]; decide
  have h2 : strip (line d "plot \\") = "plot \\\n".data := by rw [strip_line]; decide
  simp [scanStep, h1, h2]

theorem scanStep_inPlot_term (d : Int) :
    scanStep .inPlot (line d "'-' linetype bgnd") = some .inData := by
  have h1 : ¬ endsCont (line d "'-' linetype bgnd") := by rw [endsCont_line]; decide
  have h2 : strip (line d "'-' linetype bgnd") = "'-' linetype bgnd\n".data := by
    rw [strip_line]; decide
  simp [scanStep, h1, h2]

/-- A clause, which ends in `,\`, is read as a clause and not as an opener. -/
theorem scanStep_inPlot_clause (d : Int) (c : String) :
    scanStep .inPlot (line d (c ++ ",\\")) = some .inPlot := by
  have h1 : endsCont (line d (c ++ ",\\")) := by
    rw [endsCont_line, endsBackslash_append, if_neg (by decide)]; decide
  have h2 : strip (line d (c ++ ",\\")) ≠ "plot \\\n".data := by
    intro h
    have hsuf : "plot \\\n".data <:+ ((c ++ ",\\").data ++ ['\n']) := by
      rw [← h, strip_line]
      exact List.dropWhile_suffix _
    rw [← List.reverse_prefix] at hsuf
    have hrev : "plot \\\n".data.reverse = ['\n', '\\', ' ', 't', 'o', 'l', 'p'] := by decide
    have hlit : ",\\".data = [',', '\\'] := by decide
    rw [hrev, String.data_append, hlit] at hsuf
    simp at hsuf
  simp [scanStep, h1, h2]

theorem scan_append (a : List String) :
    ∀ (s : Scan) (b : List String),
      scan s (a ++ b) = (scan s a).bind (fun s1 => scan s1 b) := by
  induction a with
  | nil => intro s b; rfl
  | cons l rest ih =>
    intro s b
    simp only [List.cons_append, scan]
    cases scanStep s l with
    | none => rfl
    | some s1 => exact ih s1 b

theorem scan_terminator (g : Float64 → String) (d : Int) :
    scan .inPlot (terminator g d) = some .top := by
  have h3 : ¬ endsCont (line d "e") := by rw [endsCont_line]; decide
  have h4 : strip (line d "e") = "e\n".data := by rw [strip_line]; decide
  simp only [terminator, scan, scanStep_inPlot_term]
  by_cases h : strip (line d (g MaxFloat64 ++ " " ++ g MaxFloat64)) = "e\n".data
  · simp [scanStep, h, h3]
  · simp [scanStep, h, h4]

theorem statements_ok : EmitsStatements (fun p => Res.ok p) := by
  intro p q h; cases h; exact ⟨[], by simp, rfl⟩

theorem statements_setStyle (st : Style) :
    EmitsStatements (fun p => Res.ok { p with toStyle := st }) := by
  intro p q h; cases h; exact ⟨[], by simp, rfl⟩

theorem statements_Emit {cmd : String} (h : ¬ endsBackslash cmd) :
    EmitsStatements (Emit cmd) := by
  intro p q hq
  obtain ⟨_, _, rfl⟩ := Emit_eq_ok.mp hq
  exact ⟨[line p.indentLevel cmd], rfl, by simp [scan, scanStep_top_line _ h]⟩

theorem statements_bind {a b : Gnuplot → Res} (ha : EmitsStatements a)
    (hb : EmitsStatements b) : EmitsStatements (fun p => (a p).bind b) := by
  intro p q h
  obtain ⟨m, h1, h2⟩ := bind_eq_ok.mp h
  obtain ⟨l1, e1, s1⟩ := ha _ _ h1
  obtain ⟨l2, e2, s2⟩ := hb _ _ h2
  refine ⟨l1 ++ l2, by rw [e2, e1, List.append_assoc], ?_⟩
  rw [scan_append, s1]
  exact s2

theorem statements_scope {a f c : Gnuplot → Res} (ha : EmitsStatements a)
    (hf : EmitsStatements f) (hc : EmitsStatements c) :
    EmitsStatements
      (fun p => (a p).bind fun p => (f (incIndent p)).bind fun p => c (decIndent p)) := by
  intro p q h
  obtain ⟨m1, h1, h⟩ := bind_eq_ok.mp h
  obtain ⟨m2, h2, h3⟩ := bind_eq_ok.mp h
  obtain ⟨l1, e1, s1⟩ := ha _ _ h1
  obtain ⟨l2, e2, s2⟩ := hf _ _ h2
  obtain ⟨l3, e3, s3⟩ := hc _ _ h3
  simp only [incIndent_f, decIndent_f] at e2 e3
  refine ⟨l1 ++ (l2 ++ l3), by rw [e3, e2, e1]; simp [List.append_assoc], ?_⟩
  rw [scan_append, s1]
  show scan .top (l2 ++ l3) = some .top
  rw [scan_append, s2]
  exact s3

theorem clauses_ok : EmitsClauses (fun p => Res.ok p) := by
  intro p q h; cases h; exact ⟨[], by simp, rfl⟩

theorem clauses_setStyle (st : Style) :
    EmitsClauses (fun p => Res.ok { p with toStyle := st }) := by
  intro p q h; cases h; exact ⟨[], by simp, rfl⟩

theorem clauses_bind {a b : Gnuplot → Res} (ha : EmitsClauses a) (hb : EmitsClauses b) :
    EmitsClauses (fun p => (a p).bind b) := by
  intro p q h
  obtain ⟨m, h1, h2⟩ := bind_eq_ok.mp h
  obtain ⟨l1, e1, s1⟩ := ha _ _ h1
  obtain ⟨l2, e2, s2⟩ := hb _ _ h2
  refine ⟨l1 ++ l2, by rw [e2, e1, List.append_assoc], ?_⟩
  rw [scan_append, s1]
  exact s2

theorem scan_clauses (d : Int) (cs : List String) :
    scan .inPlot (cs.map (fun c => line d (c ++ ",\\"))) = some .inPlot := by
  induction cs with
  | nil => rfl
  | cons c rest ih => simp only [List.map_cons, scan, scanStep_inPlot_clause]; exact ih

theorem clauses_Points (g : Float64 → String) (ps : List String) :
    EmitsClauses (Points g ps) := by
  intro p q h
  refine ⟨_, (Points_eq_ok g ps p q h).1, ?_⟩
  have := scan_clauses p.indentLevel (ps.map (fun point =>
    "\"<echo " ++ point ++ "\" with points " ++
      ("pointtype " ++ p.PointType ++ " pointsize " ++ g p.PointSize ++ " linecolor " ++
        p.Color)))
  simpa [pointClause, List.map_map, Function.comp_def] using this

theorem clauses_Lines (g : Float64 → String) (ls : List String) :
    EmitsClauses (Lines g ls) := by
  intro p q h
  refine ⟨_, (Lines_eq_ok g ls p q h).1, ?_⟩
  have := scan_clauses p.indentLevel (ls.map (fun l =>
    l ++ " with lines " ++
      ("linetype " ++ p.LineType ++ " linewidth " ++ g p.LineWidth ++ " linecolor " ++
        p.Color)))
  simpa [lineClause, List.map_map, Function.comp_def] using this

/-- A body of `Points` and `Lines` calls appends clauses only. -/
theorem clauseOnly_clauses (g : Float64 → String) (prog : Prog) :
    ClauseOnly prog → EmitsClauses (run g prog) := by
  induction prog with
  | skip => intro _; exact clauses_ok
  | seq a b iha ihb => intro h; exact clauses_bind (iha h.1) (ihb h.2)
  | readStyle k ih => intro h p q hq; exact ih p.toStyle (h p.toStyle) p q hq
  | setStyle st => intro _; exact clauses_setStyle st
  | points ps => intro _; exact clauses_Points g ps
  | lines ls => intro _; exact clauses_Lines g ls
  | emit cmd =>
    intro h p q hq
    obtain ⟨t, ht⟩ := h
    have hc : cmd = String.mk t ++ ",\\" := String.ext (by simp [String.data_append, ← ht])
    obtain ⟨_, _, rfl⟩ := Emit_eq_ok.mp hq
    refine ⟨[line p.indentLevel cmd], rfl, ?_⟩
    rw [hc]
    simp only [scan, scanStep_inPlot_clause]
  | set _ => intro h; exact h.elim
  | unset _ => intro h; exact h.elim
  | plot _ _ => intro h; exact h.elim
  | with_ _ _ _ => intro h; exact h.elim
  | multiplot _ _ => intro h; exact h.elim
  | margin _ => intro h; exact h.elim
  | empty => intro h; exact h.elim
  | plotBorder => intro h; exact h.elim
  | noTitle => intro h; exact h.elim
  | lockRatio => intro h; exact h.elim
  | circle _ _ _ => intro h; exact h.elim
  | xtics _ => intro h; exact h.elim
  | ytics _ => intro h; exact h.elim
  | xrange _ _ => intro h; exact h.elim
  | yrange _ _ => intro h; exact h.elim
  | quit => intro h; exact h.elim
  | test => intro h; exact h.elim

theorem Empty_eq_ok (g : Float64 → String) {p q : Gnuplot} (h : Empty g p = .ok q) :
    q.f.written = p.f.written ++ terminator g p.indentLevel := by
  unfold Empty at h
  simp only [bind_eq_ok, Emit_eq_ok] at h
  obtain ⟨m1, ⟨_, _, rfl⟩, m2, ⟨_, _, rfl⟩, _, _, rfl⟩ := h
  simp [terminator]

/-- A plot statement around a body of clauses is one whole statement. -/
theorem statements_Plot (g : Float64 → String) {f : Gnuplot → Res} (hf : EmitsClauses f) :
    EmitsStatements (Plot g f) := by
  intro p q h
  unfold Plot at h
  obtain ⟨m1, h1, h⟩ := bind_eq_ok.mp h
  obtain ⟨m2, h2, h⟩ := bind_eq_ok.mp h
  obtain ⟨m3, h3, h4⟩ := bind_eq_ok.mp h
  cases h4
  obtain ⟨_, _, rfl⟩ := Emit_eq_ok.mp h1
  obtain ⟨cs, e2, s2⟩ := hf _ _ h2
  have e3 := Empty_eq_ok g h3
  simp only [incIndent_f, wrote_written] at e2
  refine ⟨[line p.indentLevel "plot \\"] ++ (cs ++ terminator g m2.indentLevel), ?_, ?_⟩
  · simp [e3, e2]
  · show scan .top (line p.indentLevel "plot \\" :: (cs ++ terminator g m2.indentLevel)) =
      some .top
    simp only [scan, scanStep_top_opener]
    rw [scan_append, s2]
    exact scan_terminator g _

theorem statements_With {option : String} (ho : ¬ endsBackslash option)
    {f : Gnuplot → Res} (hf : EmitsStatements f) : EmitsStatements (With option f) :=
  statements_scope (statements_Emit (not_endsBackslash_arg _ _ (by decide) ho)) hf
    (statements_Emit (not_endsBackslash_arg _ _ (by decide) ho))

theorem statements_PlotBorder (g : Float64 → String) : EmitsStatements (PlotBorder g) :=
  statements_bind (statements_Emit (by decide))
    (statements_bind (statements_Emit (by decide)) (statements_Plot g clauses_ok))

theorem statements_Multiplot (g : Float64 → String) {f : Gnuplot → Res}
    (hf : EmitsStatements f) : EmitsStatements (Multiplot g f) :=
  statements_With (by decide)
    (statements_bind (statements_Emit (by decide)) (statements_bind (statements_Emit (by decide))
      (statements_bind (statements_Emit (by decide)) (statements_bind
        (statements_Emit (by decide)) (statements_bind hf (statements_PlotBorder g))))))

theorem statements_Margin (m : Int) : EmitsStatements (Margin m) := by
  have h : ∀ side : String, ¬ endsBackslash side →
      ¬ endsBackslash ("set " ++ (side ++ fmtInt m)) := by
    intro side hs
    rw [← String.append_assoc]
    exact not_endsBackslash_fmtInt _ m (not_endsBackslash_arg _ _ (by decide) hs)
  exact statements_bind (statements_Emit (h _ (by decide)))
    (statements_bind (statements_Emit (h _ (by decide)))
      (statements_bind (statements_Emit (h _ (by decide)))
        (statements_Emit (h _ (by decide)))))

theorem not_endsBackslash_row {g : Float64 → String} (hmax : ¬ endsBackslash (g MaxFloat64)) :
    ¬ endsBackslash (g MaxFloat64 ++ " " ++ g MaxFloat64) := by
  rw [endsBackslash_append]
  split_ifs with h
  · rw [endsBackslash_append]; simp; decide
  · exact hmax

/-- A guarded call sequence appends whole statements only. -/
theorem guarded_statements (g : Float64 → String) (hmax : ¬ endsBackslash (g MaxFloat64))
    (prog : Prog) : Guarded prog → EmitsStatements (run g prog) := by
  induction prog with
  | skip => intro _; exact statements_ok
  | seq a b iha ihb => intro h; exact statements_bind (iha h.1) (ihb h.2)
  | readStyle k ih => intro h p q hq; exact ih p.toStyle (h p.toStyle) p q hq
  | setStyle st => intro _; exact statements_setStyle st
  | emit cmd => intro h; exact statements_Emit h
  | set cmd => intro h; exact statements_Emit (not_endsBackslash_arg _ _ (by decide) h)
  | unset cmd => intro h; exact statements_Emit (not_endsBackslash_arg _ _ (by decide) h)
  | plot body _ => intro h; exact statements_Plot g (clauseOnly_clauses g body h)
  | with_ option body ih => intro h; exact statements_With h.1 (ih h.2)
  | multiplot body ih => intro h; exact statements_Multiplot g (ih h)
  | margin m => intro _; exact statements_Margin m
  | empty =>
    intro _
    exact statements_bind (statements_Emit (by decide))
      (statements_bind (statements_Emit (not_endsBackslash_row hmax))
        (statements_Emit (by decide)))
  | plotBorder => intro _; exact statements_PlotBorder g
  | noTitle => intro _; exact statements_Emit (by decide)
  | lockRatio => intro _; exact statements_Emit (by decide)
  | points ps => intro h; cases h; exact statements_ok
  | lines ls => intro h; cases h; exact statements_ok
  | circle a b r =>
    intro _
    refine statements_Emit ?_
    rw [← String.append_assoc]
    exact not_endsBackslash_lit _ _ (by decide) (by decide)
  | xtics style =>
    intro h
    exact statements_Emit
      (not_endsBackslash_arg _ _ (by decide) (not_endsBackslash_arg _ _ (by decide) h))
  | ytics style =>
    intro h
    exact statements_Emit
      (not_endsBackslash_arg _ _ (by decide) (not_endsBackslash_arg _ _ (by decide) h))
  | xrange a b =>
    intro _
    refine statements_Emit ?_
    rw [← String.append_assoc]
    exact not_endsBackslash_lit _ _ (by decide) (by decide)
  | yrange a b =>
    intro _
    refine statements_Emit ?_
    rw [← String.append_assoc]
    exact not_endsBackslash_lit _ _ (by decide) (by decide)
  | quit => intro _; exact statements_Emit (by decide)
  | test => intro _; exact statements_Emit (by decide)

theorem statements_NewGnuplot {f : Writer} {imgFile : String} {width height : Int}
    {p0 : Gnuplot} (h : NewGnuplot f imgFile width height = .ok p0) :
    ∃ ls, p0.f.written = f.written ++ ls ∧ scan .top ls = some .top := by
  have hs := (NewGnuplot_eq_ok h).1
  unfold NewGnuplot at h
  rw [setOutput_supported hs] at h
  have hst : EmitsStatements (fun p =>
      ((fun p => (setTerminal (deviceFor (Ext imgFile)) width height
        "background rgb '#FFFFFF' font 'Cambria Math,8'" p).bind
          (Emit ("set output '" ++ imgFile ++ "'"))) p).bind (Set "termoption dashed")) := by
    refine statements_bind (statements_bind (statements_Emit ?_) (statements_Emit ?_))
      (statements_Emit (by decide))
    · exact not_endsBackslash_lit _ _ (by decide) (by decide)
    · exact not_endsBackslash_lit _ _ (by decide) (by decide)
  exact hst (initial f) p0 h

/-- C4, as stated, fails.  First: on a freshly constructed surface, one `Points`
call outside any `Plot` body returns normally and leaves a script whose last line
ends in the continuation marker, with no further line after it.  Second: a
`Plot` body that calls `Set` after `Points` returns normally and leaves a script
in which the point clause, ending in the marker, is followed by the line
`set key`, which is no clause of the plot statement. -/
theorem dangling_marker_counterexample :
    NewGnuplot emptySink "abc.svg" 600 600 = .ok abcSurface ∧
    run gSample (.points ["1.0 2.0"]) abcSurface =
      .ok (push abcSurface
        ["\"<echo 1.0 2.0\" with points pointtype 7 pointsize 0.5 linecolor -1,\\\n"]) ∧
    ¬ WellContinued (push abcSurface
        ["\"<echo 1.0 2.0\" with points pointtype 7 pointsize 0.5 linecolor -1,\\\n"]).f.written ∧
    ¬ ByStatement (push abcSurface
        ["\"<echo 1.0 2.0\" with points pointtype 7 pointsize 0.5 linecolor -1,\\\n"]).f.written ∧
    run gSample (.seq (.plot (.seq (.points ["1.0 2.0"]) (.set "key"))) .quit) abcSurface =
      .ok (push abcSurface
        ["plot \\\n",
         "    \"<echo 1.0 2.0\" with points pointtype 7 pointsize 0.5 linecolor -1,\\\n",
         "    set key\n",
         "    '-' linetype bgnd\n",
         "    1.7976931348623157e+308 1.7976931348623157e+308\n",
         "    e\n",
         "quit\n"]) ∧
    ¬ ByStatement (push abcSurface
        ["plot \\\n",
         "    \"<echo 1.0 2.0\" with points pointtype 7 pointsize 0.5 linecolor -1,\\\n",
         "    set key\n",
         "    '-' linetype bgnd\n",
         "    1.7976931348623157e+308 1.7976931348623157e+308\n",
         "    e\n",
         "quit\n"]).f.written :=
  ⟨by decide, by decide, fun h => absurd (h 3 (by decide) (by decide)) (by decide),
   by decide, by decide, by decide⟩

/-- C4, amended. For every call sequence in which `Points`, `Lines` and text
ending in a backslash are used only directly inside `Plot` bodies and a `Plot`
body makes no call that writes anything but a clause (`Guarded`), run on a
freshly constructed surface and returning normally: the lines written since
construction began form a script
in which every line that ends in the continuation marker is followed by a
further line of the same statement (`ByStatement`), so the script never ends on,
and never leaves dangling, a continuation marker.  (The rendering of
`math.MaxFloat64` is taken not to end in a backslash.) -/
theorem guarded_never_dangling (g : Float64 → String) (f : Writer) (imgFile : String)
    (width height : Int) (prog : Prog) (p0 q : Gnuplot)
    (hmax : ¬ endsBackslash (g MaxFloat64))
    (hnew : NewGnuplot f imgFile width height = .ok p0)
    (hg : Guarded prog)
    (hrun : run g prog p0 = .ok q) :
    WellContinued q.f.written ∧ LastPlain q.f.written ∧
    ∃ script, q.f.written = f.written ++ script ∧ ByStatement script ∧
      WellContinued script := by
  have h := guarded_lastPlain g prog hg p0 q hrun (lastPlain_NewGnuplot hnew)
  refine ⟨(wellContinued_iff _).mpr h, h, ?_⟩
  obtain ⟨l0, e0, s0⟩ := statements_NewGnuplot hnew
  obtain ⟨l1, e1, s1⟩ := guarded_statements g hmax prog hg p0 q hrun
  have hscript : q.f.written = f.written ++ (l0 ++ l1) := by
    rw [e1, e0, List.append_assoc]
  refine ⟨l0 ++ l1, hscript, ?_, ?_⟩
  · show scan .top (l0 ++ l1) = some .top
    rw [scan_append, s0]
    exact s1
  · rw [wellContinued_iff]
    intro l hl
    apply h l
    rw [hscript, List.getLast?_append, hl]
    rfl

theorem guarded_never_dangling_witness :
    ¬ endsBackslash (gSample MaxFloat64) ∧
    NewGnuplot emptySink "abc.svg" 600 600 = .ok abcSurface ∧
    Guarded (.seq testBody .quit) ∧
    run gSample (.seq testBody .quit) abcSurface =
      .ok (run gSample (.seq testBody .quit) abcSurface).state ∧
    WellContinued (run gSample (.seq testBody .quit) abcSurface).state.f.written ∧
    ByStatement (run gSample (.seq testBody .quit) abcSurface).state.f.written :=
  ⟨by decide, by decide, by simp [Guarded, ClauseOnly, testBody]; decide, by decide,
   (guarded_never_dangling gSample emptySink "abc.svg" 600 600 (.seq testBody .quit)
      abcSurface _ (by decide) (by decide) (by simp [Guarded, ClauseOnly, testBody]; decide)
      (by decide)).1,
   by
    obtain ⟨_, _, script, hs, hb, _⟩ := guarded_never_dangling gSample emptySink "abc.svg"
      600 600 (.seq testBody .quit) abcSurface
      (run gSample (.seq testBody .quit) abcSurface).state (by decide) (by decide)
      (by simp [Guarded, ClauseOnly, testBody]; decide) (by decide)
    have : script = (run gSample (.seq testBody .quit) abcSurface).state.f.written := by
      simpa [emptySink] using hs.symm
    rw [← this]
    exact hb⟩

end GoGnuplot



